import Mathlib

/-!
Shallow embedding of the clang-AST declaration-model walker in `src/src/main.rs`.

The program walks the entity tree of a parsed C translation unit and builds a
self-contained declaration model (`SourceFile`).  Frontend entities are modeled
by the inductive `Entity`, which records exactly the accessor results the
program reads (kind, optional name, children, main-file flag, location triple,
typedef underlying declaration, enum underlying type, entity type, result type,
arguments, enum constant value).  Runtime panics and failed kind assertions in
the source are modeled by returning `Except.error` with a `VisitError`
describing the panic site.

The `parent_entity` argument of the `visit_entity` trait method is ignored by
every implementation in the source (bound as `_`), so it is omitted from the
embedded visit functions.
-/

set_option autoImplicit false

namespace PlayClangAst

/-- Entity kinds used by the walker, mirroring `clang::EntityKind`.  `VarDecl`
stands in for any further kind the walker treats as unexpected. -/
inductive EntityKind where
  | TranslationUnit
  | EnumDecl
  | StructDecl
  | UnionDecl
  | TypedefDecl
  | FunctionDecl
  | FieldDecl
  | ParmDecl
  | EnumConstantDecl
  | VarDecl
deriving DecidableEq, BEq, Repr

/-- Type kinds, mirroring `clang::TypeKind` restricted to what the model
stores.  `OtherType` stands in for all remaining kinds. -/
inductive TypeKind where
  | Int
  | UInt
  | Void
  | Pointer
  | Record
  | Enum
  | Typedef
  | OtherType
deriving DecidableEq, Repr

/-- A frontend type handle: the accessor results `Type::from_clang` reads
(`get_kind`, `get_display_name`, `get_pointee_type`). -/
inductive CType where
  | mk (kind : TypeKind) (displayName : String) (pointee : Option CType)

/-- A frontend entity: the accessor results the walker reads.  The field
`typedefUnderlyingDecl` models the composition
`get_typedef_underlying_type().and_then(get_declaration)` used at
`main.rs:114-117`; `location` holds the presumed-location triple returned by
`get_presumed_location`. -/
inductive Entity where
  | mk
      (kind : EntityKind)
      (name : Option String)
      (children : List Entity)
      (inMainFile : Bool)
      (location : Option (String × Nat × Nat))
      (typedefUnderlyingDecl : Option Entity)
      (enumUnderlyingType : Option CType)
      (entityType : Option CType)
      (resultType : Option CType)
      (argumentList : Option (List Entity))
      (enumConstantValue : Option (Int × Nat))

/-- Accessor mirroring `Entity::get_kind`. -/
def Entity.get_kind : Entity → EntityKind
  | .mk k _ _ _ _ _ _ _ _ _ _ => k

/-- Accessor mirroring `Entity::get_name`. -/
def Entity.get_name : Entity → Option String
  | .mk _ n _ _ _ _ _ _ _ _ _ => n

/-- Accessor mirroring `Entity::get_children`. -/
def Entity.get_children : Entity → List Entity
  | .mk _ _ ch _ _ _ _ _ _ _ _ => ch

/-- Accessor mirroring `Entity::is_in_main_file`. -/
def Entity.is_in_main_file : Entity → Bool
  | .mk _ _ _ m _ _ _ _ _ _ _ => m

/-- Accessor mirroring `Entity::get_location` composed with
`get_presumed_location`. -/
def Entity.get_location : Entity → Option (String × Nat × Nat)
  | .mk _ _ _ _ loc _ _ _ _ _ _ => loc

/-- Accessor mirroring `get_typedef_underlying_type().and_then(get_declaration)`. -/
def Entity.get_typedef_underlying_declaration : Entity → Option Entity
  | .mk _ _ _ _ _ und _ _ _ _ _ => und

/-- Accessor mirroring `Entity::get_enum_underlying_type`. -/
def Entity.get_enum_underlying_type : Entity → Option CType
  | .mk _ _ _ _ _ _ eut _ _ _ _ => eut

/-- Accessor mirroring `Entity::get_type`. -/
def Entity.get_type : Entity → Option CType
  | .mk _ _ _ _ _ _ _ ty _ _ _ => ty

/-- Accessor mirroring `Entity::get_result_type`. -/
def Entity.get_result_type : Entity → Option CType
  | .mk _ _ _ _ _ _ _ _ rt _ _ => rt

/-- Accessor mirroring `Entity::get_arguments`. -/
def Entity.get_arguments : Entity → Option (List Entity)
  | .mk _ _ _ _ _ _ _ _ _ args _ => args

/-- Accessor mirroring `Entity::get_enum_constant_value` (signed, unsigned). -/
def Entity.get_enum_constant_value : Entity → Option (Int × Nat)
  | .mk _ _ _ _ _ _ _ _ _ _ ecv => ecv

/-- Replace the child list of an entity, leaving every other accessor result
unchanged (used to state frame properties about the walk). -/
def Entity.withChildren : Entity → List Entity → Entity
  | .mk k n _ m loc und eut ty rt args ecv, ch => .mk k n ch m loc und eut ty rt args ecv

/-- Convenience constructor: an entity with the given kind, name, children and
main-file flag, and every other accessor absent. -/
def Entity.base (kind : EntityKind) (name : Option String) (children : List Entity)
    (inMainFile : Bool) : Entity :=
  .mk kind name children inMainFile none none none none none none none

/-- The `SourceLocation` value object (`main.rs:17-36`). -/
structure SourceLocation where
  path : String
  line_number : Nat
  column_number : Nat
deriving DecidableEq, Repr

/-- `SourceLocation::new` (`main.rs:25-31`). -/
def SourceLocation.new (loc : String × Nat × Nat) : SourceLocation :=
  { path := loc.1, line_number := loc.2.1, column_number := loc.2.2 }

/-- `SourceLocation::from_clang` (`main.rs:33-35`); the clang location handle is
modeled by its presumed-location triple. -/
def SourceLocation.from_clang (loc : String × Nat × Nat) : SourceLocation :=
  SourceLocation.new loc

/-- The `Type` value object (`main.rs:38-43`); named `Ty` because `Type` is a
reserved universe name in Lean. -/
inductive Ty where
  | mk (type_kind : TypeKind) (type_name : String) (pointee_type : Option Ty)

/-- `Type::from_clang` (`main.rs:54-61`). -/
def Ty.from_clang : CType → Ty
  | .mk k n none => .mk k n none
  | .mk k n (some p) => .mk k n (some (Ty.from_clang p))

/-- Panic and failed-assertion sites of the walker, one constructor per site. -/
inductive VisitError where
  /-- `assert_eq!(current_entity.get_kind(), self.entity_kind())` failed
  (expected kind, actual kind). -/
  | kindMismatch (expected actual : EntityKind)
  /-- `child_entity.get_name().unwrap()` in `EnumDeclare::visit_entity`
  (`main.rs:310`). -/
  | unnamedEnumConstant
  /-- the catch-all arm of `StructDeclare::visit_entity` (`main.rs:433`). -/
  | unexpectedStructMember
  /-- the catch-all arm of the typedef branch of `parse_type_declare`
  (`main.rs:157-160`). -/
  | unexpectedTypedefUnderlying
  /-- the catch-all arm of `parse_type_declare` (`main.rs:166`). -/
  | unexpectedTypeEntity
  /-- `panic!("Unnamed function was declared")` (`main.rs:202`). -/
  | unnamedFunction
  /-- `argument.get_name().unwrap()` in `FunctionDeclare::visit_entity`
  (`main.rs:561`). -/
  | unnamedParameter
  /-- the catch-all arm of `SourceFile::visit_entity` (`main.rs:205`). -/
  | unexpectedTopLevelEntity
deriving DecidableEq, Repr

/-- `EnumConstantValue` (`main.rs:211-215`): the i64 and u64 forms as returned
by the frontend, stored verbatim (no arithmetic is performed on them). -/
structure EnumConstantValue where
  signed : Int
  unsigned : Nat

/-- `EnumConstantDeclare` (`main.rs:217-222`). -/
structure EnumConstantDeclare where
  name : String
  location : Option SourceLocation
  constant_value : Option EnumConstantValue

/-- `EnumConstantDeclare::new` (`main.rs:224-232`). -/
def EnumConstantDeclare.new (name : String) : EnumConstantDeclare :=
  { name := name, location := none, constant_value := none }

/-- `EnumConstantDeclare::visit_entity` (`main.rs:250-261`). -/
def EnumConstantDeclare.visit_entity (self : EnumConstantDeclare) (current_entity : Entity) :
    Except VisitError EnumConstantDeclare :=
  if current_entity.get_kind ≠ .EnumConstantDecl then
    .error (.kindMismatch .EnumConstantDecl current_entity.get_kind)
  else
    .ok { self with
          constant_value :=
            match current_entity.get_enum_constant_value with
            | some (s, u) => some { signed := s, unsigned := u }
            | none => self.constant_value,
          location := current_entity.get_location.map SourceLocation.from_clang }

/-- `EnumDeclare` (`main.rs:264-271`). -/
structure EnumDeclare where
  enum_name : Option String
  typedef_name : Option String
  constants : List EnumConstantDeclare
  enum_type : Option Ty
  location : Option SourceLocation

/-- `EnumDeclare::new` (`main.rs:274-282`). -/
def EnumDeclare.new (enum_name typedef_name : Option String) : EnumDeclare :=
  { enum_name := enum_name, typedef_name := typedef_name, constants := [],
    enum_type := none, location := none }

/-- The child loop of `EnumDeclare::visit_entity` (`main.rs:308-315`). -/
def EnumDeclare.visitConstants (self : EnumDeclare) :
    List Entity → Except VisitError EnumDeclare
  | [] => .ok self
  | child_entity :: rest =>
    match child_entity.get_name with
    | none => .error .unnamedEnumConstant
    | some name =>
      match EnumConstantDeclare.visit_entity (EnumConstantDeclare.new name) child_entity with
      | .error e => .error e
      | .ok c => EnumDeclare.visitConstants { self with constants := self.constants ++ [c] } rest

/-- `EnumDeclare::visit_entity` (`main.rs:300-316`). -/
def EnumDeclare.visit_entity (self : EnumDeclare) (current_entity : Entity) :
    Except VisitError EnumDeclare :=
  if current_entity.get_kind ≠ .EnumDecl then
    .error (.kindMismatch .EnumDecl current_entity.get_kind)
  else
    EnumDeclare.visitConstants
      { self with
        enum_type := current_entity.get_enum_underlying_type.map Ty.from_clang,
        location := current_entity.get_location.map SourceLocation.from_clang }
      current_entity.get_children

/-- `FieldDeclare` (`main.rs:331-336`). -/
structure FieldDeclare where
  name : Option String
  field_type : Option Ty
  location : Option SourceLocation

/-- `FieldDeclare::new` (`main.rs:338-345`). -/
def FieldDeclare.new (name : Option String) : FieldDeclare :=
  { name := name, field_type := none, location := none }

/-- `FieldDeclare::visit_entity` (`main.rs:363-371`). -/
def FieldDeclare.visit_entity (self : FieldDeclare) (current_entity : Entity) :
    Except VisitError FieldDeclare :=
  if current_entity.get_kind ≠ .FieldDecl then
    .error (.kindMismatch .FieldDecl current_entity.get_kind)
  else
    .ok { self with
          field_type := current_entity.get_type.map Ty.from_clang,
          location := current_entity.get_location.map SourceLocation.from_clang }

/-- `UnionDeclare` (`main.rs:451-457`).  The source stores union members as
`Vec<Box<dyn EntityVisitor>>`, but the only values ever pushed are
`FieldDeclare` (`main.rs:492-499`), so the member list is typed accordingly. -/
structure UnionDeclare where
  union_name : Option String
  typedef_name : Option String
  fields : List FieldDeclare
  location : Option SourceLocation

/-- `UnionDeclare::new` (`main.rs:459-468`). -/
def UnionDeclare.new (union_name typedef_name : Option String) : UnionDeclare :=
  { union_name := union_name, typedef_name := typedef_name, fields := [], location := none }

/-- The child loop of `UnionDeclare::visit_entity` (`main.rs:491-499`): every
child is passed to `FieldDeclare` population, whatever its kind. -/
def UnionDeclare.visitFields (self : UnionDeclare) :
    List Entity → Except VisitError UnionDeclare
  | [] => .ok self
  | child_entity :: rest =>
    match FieldDeclare.visit_entity (FieldDeclare.new child_entity.get_name) child_entity with
    | .error e => .error e
    | .ok fd => UnionDeclare.visitFields { self with fields := self.fields ++ [fd] } rest

/-- `UnionDeclare::visit_entity` (`main.rs:486-500`). -/
def UnionDeclare.visit_entity (self : UnionDeclare) (current_entity : Entity) :
    Except VisitError UnionDeclare :=
  if current_entity.get_kind ≠ .UnionDecl then
    .error (.kindMismatch .UnionDecl current_entity.get_kind)
  else
    UnionDeclare.visitFields
      { self with location := current_entity.get_location.map SourceLocation.from_clang }
      current_entity.get_children

/-- A member of a struct: the source stores `Vec<Box<dyn EntityVisitor>>` and
pushes either a `FieldDeclare` or a nested `UnionDeclare`
(`main.rs:414-434`). -/
inductive StructMember where
  | field (f : FieldDeclare)
  | nestedUnion (u : UnionDeclare)

/-- `StructDeclare` (`main.rs:374-380`). -/
structure StructDeclare where
  struct_name : Option String
  typedef_name : Option String
  fields : List StructMember
  location : Option SourceLocation

/-- `StructDeclare::new` (`main.rs:382-391`). -/
def StructDeclare.new (struct_name typedef_name : Option String) : StructDeclare :=
  { struct_name := struct_name, typedef_name := typedef_name, fields := [], location := none }

/-- The child loop of `StructDeclare::visit_entity` (`main.rs:413-435`). -/
def StructDeclare.visitMembers (self : StructDeclare) :
    List Entity → Except VisitError StructDeclare
  | [] => .ok self
  | child_entity :: rest =>
    match child_entity.get_kind with
    | .FieldDecl =>
      match FieldDeclare.visit_entity (FieldDeclare.new child_entity.get_name) child_entity with
      | .error e => .error e
      | .ok fd =>
        StructDeclare.visitMembers { self with fields := self.fields ++ [.field fd] } rest
    | .UnionDecl =>
      match UnionDeclare.visit_entity (UnionDeclare.new child_entity.get_name none) child_entity with
      | .error e => .error e
      | .ok ud =>
        StructDeclare.visitMembers { self with fields := self.fields ++ [.nestedUnion ud] } rest
    | _ => .error .unexpectedStructMember

/-- `StructDeclare::visit_entity` (`main.rs:408-436`). -/
def StructDeclare.visit_entity (self : StructDeclare) (current_entity : Entity) :
    Except VisitError StructDeclare :=
  if current_entity.get_kind ≠ .StructDecl then
    .error (.kindMismatch .StructDecl current_entity.get_kind)
  else
    StructDeclare.visitMembers
      { self with location := current_entity.get_location.map SourceLocation.from_clang }
      current_entity.get_children

/-- `ParameterDeclare` (`main.rs:571-576`). -/
structure ParameterDeclare where
  name : String
  parameter_type : Option Ty
  location : Option SourceLocation

/-- `ParameterDeclare::new` (`main.rs:578-585`). -/
def ParameterDeclare.new (name : String) : ParameterDeclare :=
  { name := name, parameter_type := none, location := none }

/-- `ParameterDeclare::visit_entity` (`main.rs:603-611`). -/
def ParameterDeclare.visit_entity (self : ParameterDeclare) (current_entity : Entity) :
    Except VisitError ParameterDeclare :=
  if current_entity.get_kind ≠ .ParmDecl then
    .error (.kindMismatch .ParmDecl current_entity.get_kind)
  else
    .ok { self with
          parameter_type := current_entity.get_type.map Ty.from_clang,
          location := current_entity.get_location.map SourceLocation.from_clang }

/-- `FunctionDeclare` (`main.rs:515-521`). -/
structure FunctionDeclare where
  function_name : String
  return_type : Option Ty
  parameters : List ParameterDeclare
  location : Option SourceLocation

/-- `FunctionDeclare::new` (`main.rs:523-531`). -/
def FunctionDeclare.new (function_name : String) : FunctionDeclare :=
  { function_name := function_name, return_type := none, parameters := [], location := none }

/-- The argument loop of `FunctionDeclare::visit_entity` (`main.rs:558-567`);
`argument.get_name().unwrap()` panics on an unnamed argument. -/
def FunctionDeclare.visitArguments (self : FunctionDeclare) :
    List Entity → Except VisitError FunctionDeclare
  | [] => .ok self
  | argument :: rest =>
    match argument.get_name with
    | none => .error .unnamedParameter
    | some name =>
      match ParameterDeclare.visit_entity (ParameterDeclare.new name) argument with
      | .error e => .error e
      | .ok p =>
        FunctionDeclare.visitArguments { self with parameters := self.parameters ++ [p] } rest

/-- `FunctionDeclare::visit_entity` (`main.rs:550-568`). -/
def FunctionDeclare.visit_entity (self : FunctionDeclare) (current_entity : Entity) :
    Except VisitError FunctionDeclare :=
  if current_entity.get_kind ≠ .FunctionDecl then
    .error (.kindMismatch .FunctionDecl current_entity.get_kind)
  else
    let self := { self with
                  location := current_entity.get_location.map SourceLocation.from_clang,
                  return_type := current_entity.get_result_type.map Ty.from_clang }
    match current_entity.get_arguments with
    | none => .ok self
    | some arguments => FunctionDeclare.visitArguments self arguments

/-- The `dyn TypeDeclaration` trait objects stored in
`SourceFile::type_declares`, as a closed sum: the source only ever stores
`EnumDeclare`, `StructDeclare` or `UnionDeclare` there. -/
inductive TypeDeclaration where
  | enumD (e : EnumDeclare)
  | structD (s : StructDeclare)
  | unionD (u : UnionDeclare)

/-- The `EntityVisitor::name` method on a stored type declaration: the tag
name (`main.rs:287-289`, `395-397`, `472-474`). -/
def TypeDeclaration.name : TypeDeclaration → Option String
  | .enumD e => e.enum_name
  | .structD s => s.struct_name
  | .unionD u => u.union_name

/-- The `TypeDeclaration::typedef_name` method (`main.rs:320-323`, `441-443`,
`504-507`). -/
def TypeDeclaration.typedef_name : TypeDeclaration → Option String
  | .enumD e => e.typedef_name
  | .structD s => s.typedef_name
  | .unionD u => u.typedef_name

/-- The `TypeDeclaration::set_typedef_name` method (`main.rs:326-328`,
`446-448`, `509-512`). -/
def TypeDeclaration.set_typedef_name (d : TypeDeclaration) (new_typedef_name : String) :
    TypeDeclaration :=
  match d with
  | .enumD e => .enumD { e with typedef_name := some new_typedef_name }
  | .structD s => .structD { s with typedef_name := some new_typedef_name }
  | .unionD u => .unionD { u with typedef_name := some new_typedef_name }

/-- Whether a declaration is a `StructDeclare` (used to state claims). -/
def TypeDeclaration.isStruct : TypeDeclaration → Bool
  | .structD _ => true
  | _ => false

/-- Whether a declaration is a `UnionDeclare` (used to state claims). -/
def TypeDeclaration.isUnion : TypeDeclaration → Bool
  | .unionD _ => true
  | _ => false

/-- The merge test of the typedef branch (`main.rs:120-127`): an existing
declaration matches when both its tag name and the typedef name are present
and equal. -/
def mergeMatches (typedefName : Option String) (declare : TypeDeclaration) : Bool :=
  match declare.name, typedefName with
  | some name, some tn => name == tn
  | _, _ => false

/-- Index of the first declaration matched by
`declares.iter_mut().filter(..).next()` (`main.rs:118-128`). -/
def findMergeIdx (typedefName : Option String) : List TypeDeclaration → Option Nat
  | [] => none
  | d :: rest =>
    if mergeMatches typedefName d then some 0
    else (findMergeIdx typedefName rest).map (· + 1)

/-- In-place update of the matched declaration
(`declare.set_typedef_name(typedef_name)`, `main.rs:130-132`), realized as an
index-based update of the owning sequence. -/
def modifyTypedefName : List TypeDeclaration → Nat → String → List TypeDeclaration
  | [], _, _ => []
  | d :: rest, 0, tn => d.set_typedef_name tn :: rest
  | d :: rest, i + 1, tn => d :: modifyTypedefName rest i tn

/-- The `SourceFile` root model (`main.rs:64-69`). -/
structure SourceFile where
  path : String
  type_declares : List TypeDeclaration
  function_declares : List FunctionDeclare

/-- `SourceFile::new` (`main.rs:71-78`). -/
def SourceFile.new (path : String) : SourceFile :=
  { path := path, type_declares := [], function_declares := [] }

/-- `SourceFile::parse_type_declare` (`main.rs:80-168`). -/
def SourceFile.parse_type_declare (current_entity : Entity)
    (declares : List TypeDeclaration) : Except VisitError (List TypeDeclaration) :=
  match current_entity.get_kind with
  | .EnumDecl =>
    match current_entity.get_name with
    | some name =>
      match EnumDeclare.visit_entity (EnumDeclare.new (some name) none) current_entity with
      | .error e => .error e
      | .ok d => .ok (declares ++ [.enumD d])
    | none => .ok declares
  | .StructDecl =>
    match current_entity.get_name with
    | some name =>
      match StructDeclare.visit_entity (StructDeclare.new (some name) none) current_entity with
      | .error e => .error e
      | .ok d => .ok (declares ++ [.structD d])
    | none => .ok declares
  | .UnionDecl =>
    match current_entity.get_name with
    | some name =>
      match UnionDeclare.visit_entity (UnionDeclare.new (some name) none) current_entity with
      | .error e => .error e
      | .ok d => .ok (declares ++ [.unionD d])
    | none => .ok declares
  | .TypedefDecl =>
    match current_entity.get_typedef_underlying_declaration with
    | none => .ok declares
    | some declaration_entity =>
      match findMergeIdx current_entity.get_name declares with
      | some i =>
        match current_entity.get_name with
        | some typedef_name => .ok (modifyTypedefName declares i typedef_name)
        | none => .ok declares
      | none =>
        match declaration_entity.get_kind with
        | .EnumDecl =>
          match EnumDeclare.visit_entity (EnumDeclare.new none current_entity.get_name)
              declaration_entity with
          | .error e => .error e
          | .ok d => .ok (declares ++ [.enumD d])
        | .StructDecl =>
          match StructDeclare.visit_entity (StructDeclare.new none current_entity.get_name)
              declaration_entity with
          | .error e => .error e
          | .ok d => .ok (declares ++ [.structD d])
        | .UnionDecl =>
          match UnionDeclare.visit_entity (UnionDeclare.new none current_entity.get_name)
              declaration_entity with
          | .error e => .error e
          | .ok d => .ok (declares ++ [.unionD d])
        | _ => .error .unexpectedTypedefUnderlying
  | _ => .error .unexpectedTypeEntity

/-- One step of the dispatch loop of `SourceFile::visit_entity`
(`main.rs:190-206`), applied to a child already past the main-file filter. -/
def SourceFile.visitChild (self : SourceFile) (next_entity : Entity) :
    Except VisitError SourceFile :=
  match next_entity.get_kind with
  | .EnumDecl | .StructDecl | .TypedefDecl =>
    match SourceFile.parse_type_declare next_entity self.type_declares with
    | .error e => .error e
    | .ok ds => .ok { self with type_declares := ds }
  | .FunctionDecl =>
    match next_entity.get_name with
    | some function_name =>
      match FunctionDeclare.visit_entity (FunctionDeclare.new function_name) next_entity with
      | .error e => .error e
      | .ok f => .ok { self with function_declares := self.function_declares ++ [f] }
    | none => .error .unnamedFunction
  | _ => .error .unexpectedTopLevelEntity

/-- The dispatch loop of `SourceFile::visit_entity` over the filtered child
list (`main.rs:190-207`). -/
def SourceFile.visitChildren (self : SourceFile) :
    List Entity → Except VisitError SourceFile
  | [] => .ok self
  | next_entity :: rest =>
    match SourceFile.visitChild self next_entity with
    | .error e => .error e
    | .ok sf => SourceFile.visitChildren sf rest

/-- `SourceFile::visit_entity` (`main.rs:187-208`). -/
def SourceFile.visit_entity (self : SourceFile) (current_entity : Entity) :
    Except VisitError SourceFile :=
  if current_entity.get_kind ≠ .TranslationUnit then
    .error (.kindMismatch .TranslationUnit current_entity.get_kind)
  else
    SourceFile.visitChildren self
      (current_entity.get_children.filter (fun e => e.is_in_main_file))

/-- The per-translation-unit part of `main` (`main.rs:632-636`): a `SourceFile`
is only built when the root entity has a name (the file path); the result is
`none` otherwise. -/
def processTranslationUnit (root : Entity) : Option (Except VisitError SourceFile) :=
  match root.get_name with
  | some name => some (SourceFile.visit_entity (SourceFile.new name) root)
  | none => none

/-! ## Specification-side helpers

Recompositions of the walk used to state ordering and invariant claims: the
type-declaration sequence is the left fold of `parse_type_declare` over the
type-kind children, and the function sequence is the in-order traversal of the
function-kind children. -/

/-- Left fold of `parse_type_declare` over a list of entities. -/
def parseAll (declares : List TypeDeclaration) :
    List Entity → Except VisitError (List TypeDeclaration)
  | [] => .ok declares
  | e :: rest =>
    match SourceFile.parse_type_declare e declares with
    | .error err => .error err
    | .ok ds => parseAll ds rest

/-- The function node produced for one function-kind child of the root
(`main.rs:195-203`). -/
def funNode (e : Entity) : Except VisitError FunctionDeclare :=
  match e.get_name with
  | none => .error .unnamedFunction
  | some function_name =>
    FunctionDeclare.visit_entity (FunctionDeclare.new function_name) e

/-- In-order list of function nodes for a list of entities. -/
def funNodes : List Entity → Except VisitError (List FunctionDeclare)
  | [] => .ok []
  | e :: rest =>
    match funNode e with
    | .error err => .error err
    | .ok f =>
      match funNodes rest with
      | .error err => .error err
      | .ok fs => .ok (f :: fs)

/-- Whether a child is routed to `parse_type_declare` by the dispatch at
`main.rs:192`. -/
def isTypeDeclChild (e : Entity) : Bool :=
  match e.get_kind with
  | .EnumDecl | .StructDecl | .TypedefDecl => true
  | _ => false

/-- Whether a child is routed to the function branch of the dispatch
(`main.rs:195`). -/
def isFunDeclChild (e : Entity) : Bool :=
  match e.get_kind with
  | .FunctionDecl => true
  | _ => false

/-- The main-file children routed to `parse_type_declare`, in order. -/
def typeDeclChildren (root : Entity) : List Entity :=
  (root.get_children.filter (fun e => e.is_in_main_file)).filter isTypeDeclChild

/-- The main-file children of function kind, in order. -/
def funDeclChildren (root : Entity) : List Entity :=
  (root.get_children.filter (fun e => e.is_in_main_file)).filter isFunDeclChild

/-- Whether an entity is a field-declaration entity. -/
def isFieldKind (e : Entity) : Bool :=
  match e.get_kind with
  | .FieldDecl => true
  | _ => false

/-- Whether an entity is an enum-constant-declaration entity. -/
def isEnumConstantKind (e : Entity) : Bool :=
  match e.get_kind with
  | .EnumConstantDecl => true
  | _ => false

/-- Whether an entity is a parameter-declaration entity. -/
def isParmKind (e : Entity) : Bool :=
  match e.get_kind with
  | .ParmDecl => true
  | _ => false

/-- Local kind discipline of one entity, as the frontend guarantees it for a
parsed C translation unit: union children are field declarations, enum
children are enum-constant declarations, function arguments are parameter
declarations. -/
def wfKindsLocal (k : EntityKind) (children : List Entity)
    (args : Option (List Entity)) : Bool :=
  match k with
  | .UnionDecl => children.all isFieldKind
  | .EnumDecl => children.all isEnumConstantKind
  | .FunctionDecl =>
    match args with
    | none => true
    | some l => l.all isParmKind
  | _ => true

/-- At least one of the tag name and the typedef alias name of a node is
present. -/
def TagOrAlias (d : TypeDeclaration) : Prop :=
  d.name.isSome ∨ d.typedef_name.isSome

/-- The result is not a failed kind assertion. -/
def NoKindMismatch {α : Type} (r : Except VisitError α) : Prop :=
  ∀ expected actual, r ≠ .error (.kindMismatch expected actual)

/-- Whether an entity is a typedef-declaration entity. -/
def isTypedefKind (e : Entity) : Bool :=
  match e.get_kind with
  | .TypedefDecl => true
  | _ => false

/-- Every typedef child of the root carries a name, as the frontend guarantees
for parsed C (a C typedef always has a declarator name). -/
def typedefsNamed (root : Entity) : Bool :=
  root.get_children.all (fun e => !isTypedefKind e || e.get_name.isSome)

mutual

/-- Hereditary kind discipline of an entity tree (local discipline at every
entity reachable through children, the typedef underlying declaration, or the
argument list). -/
def Entity.wfKinds : Entity → Bool
  | .mk k _ ch _ _ und _ _ _ args _ =>
    wfKindsLocal k ch args && wfKindsList ch && wfKindsOpt und && wfKindsArgs args

/-- `Entity.wfKinds` on every entity of a list. -/
def wfKindsList : List Entity → Bool
  | [] => true
  | e :: es => Entity.wfKinds e && wfKindsList es

/-- `Entity.wfKinds` on an optional entity. -/
def wfKindsOpt : Option Entity → Bool
  | none => true
  | some e => Entity.wfKinds e

/-- `Entity.wfKinds` on an optional list of entities. -/
def wfKindsArgs : Option (List Entity) → Bool
  | none => true
  | some l => wfKindsList l

end

/-! ## Concrete entity trees

Frontend trees for the concrete programs the claims mention, shaped as the
frontend emits them (the tag declaration child precedes the typedef child of a
combined `typedef struct .. name;` declaration). -/

/-- The C type `int`. -/
def intCType : CType := .mk .Int "int" none

/-- A named field-declaration entity of type `int`, located in the main file. -/
def fieldEnt (name : String) : Entity :=
  .mk .FieldDecl (some name) [] true none none none (some intCType) none none none

/-- The entity `struct Point { int x; int y; }`. -/
def pointStructEnt : Entity :=
  Entity.base .StructDecl (some "Point") [fieldEnt "x", fieldEnt "y"] true

/-- The entity `typedef struct Point Point` with its underlying declaration. -/
def pointTypedefEnt : Entity :=
  .mk .TypedefDecl (some "Point") [] true none (some pointStructEnt) none none none none none

/-- Translation unit for `typedef struct Point { int x; int y; } Point;`. -/
def pointTU : Entity :=
  Entity.base .TranslationUnit (some "point.c") [pointStructEnt, pointTypedefEnt] true

/-- The entity `union U { int x; }` at top level of the main file. -/
def unionUEnt : Entity :=
  Entity.base .UnionDecl (some "U") [fieldEnt "x"] true

/-- Translation unit for `union U { int x; };`. -/
def unionTU : Entity :=
  Entity.base .TranslationUnit (some "union.c") [unionUEnt] true

/-- The anonymous entity `struct { int x; }`. -/
def vec2StructEnt : Entity :=
  Entity.base .StructDecl none [fieldEnt "x"] true

/-- The entity `typedef struct { int x; } Vec2` with its underlying anonymous
declaration. -/
def vec2TypedefEnt : Entity :=
  .mk .TypedefDecl (some "Vec2") [] true none (some vec2StructEnt) none none none none none

/-- Translation unit for `typedef struct { int x; } Vec2;`. -/
def vec2TU : Entity :=
  Entity.base .TranslationUnit (some "vec2.c") [vec2StructEnt, vec2TypedefEnt] true

/-- An anonymous, empty struct declaration entity. -/
def anonEmptyStructEnt : Entity :=
  Entity.base .StructDecl none [] true

/-- A typedef entity carrying no name whose underlying declaration is an
anonymous struct: representable at the entity interface, although a C typedef
always has a name. -/
def namelessTypedefEnt : Entity :=
  .mk .TypedefDecl none [] true none (some anonEmptyStructEnt) none none none none none

/-- Translation unit whose only main-file child is `namelessTypedefEnt`. -/
def namelessTypedefTU : Entity :=
  Entity.base .TranslationUnit (some "anon.c") [namelessTypedefEnt] true

/-- The entity `struct Inner { int x; }`. -/
def innerStructEnt : Entity :=
  Entity.base .StructDecl (some "Inner") [fieldEnt "x"] true

/-- A union entity one of whose children is a struct declaration, as the
frontend emits for `union { struct Inner { int x; } i; }`. -/
def unionWithStructEnt : Entity :=
  Entity.base .UnionDecl (some "u") [innerStructEnt, fieldEnt "i"] true

/-- The entity `struct S` containing the union above as a member. -/
def outerStructEnt : Entity :=
  Entity.base .StructDecl (some "S") [unionWithStructEnt] true

/-- Translation unit for `struct S { union { struct Inner { int x; } i; } u; };`. -/
def nestedStructTU : Entity :=
  Entity.base .TranslationUnit (some "nested.c") [outerStructEnt] true

/-- The entity `struct A {}`. -/
def structAEnt : Entity :=
  Entity.base .StructDecl (some "A") [] true

/-- The entity `struct B {}`. -/
def structBEnt : Entity :=
  Entity.base .StructDecl (some "B") [] true

/-- The entity `typedef struct B B`. -/
def typedefBEnt : Entity :=
  .mk .TypedefDecl (some "B") [] true none (some structBEnt) none none none none none

/-- Translation unit for `struct A {}; struct B {}; typedef struct B B;`,
whose typedef merges onto the node at index 1. -/
def orderTU : Entity :=
  Entity.base .TranslationUnit (some "order.c") [structAEnt, structBEnt, typedefBEnt] true

/-- The declaration model the walk produces for `orderTU`: the typedef merge
updated the node at index 1 in place. -/
def orderSF : SourceFile :=
  { path := "order.c",
    type_declares :=
      [.structD { struct_name := some "A", typedef_name := none, fields := [], location := none },
       .structD { struct_name := some "B", typedef_name := some "B", fields := [], location := none }],
    function_declares := [] }

/-- A struct declaration entity located outside the main file (pulled in from
an included header). -/
def headerStructEnt : Entity :=
  Entity.base .StructDecl (some "H") [] false

/-- An unnamed parameter entity. -/
def unnamedParmEnt : Entity :=
  .mk .ParmDecl none [] true none none none (some intCType) none none none

/-- A function entity `void f(int)` with one unnamed parameter. -/
def unnamedParamFunEnt : Entity :=
  .mk .FunctionDecl (some "f") [] true none none none none (some (.mk .Void "void" none))
    (some [unnamedParmEnt]) none

/-- Translation unit whose only main-file child is a function with an unnamed
parameter. -/
def unnamedParamTU : Entity :=
  Entity.base .TranslationUnit (some "f.c") [unnamedParamFunEnt] true

/-- The entity for an earlier typedef declaration `T0`. -/
def t0TypedefEnt : Entity :=
  Entity.base .TypedefDecl (some "T0") [] true

/-- The entity `typedef T0 T1` whose underlying declaration is itself a
typedef declaration. -/
def typedefOfTypedefEnt : Entity :=
  .mk .TypedefDecl (some "T1") [] true none (some t0TypedefEnt) none none none none none

/-- The entity `typedef int MyInt`: its underlying type has no declaration
entity, so the composed accessor yields `none`. -/
def typedefIntEnt : Entity :=
  .mk .TypedefDecl (some "MyInt") [] true none none none none none none none

end PlayClangAst

namespace PlayClangAst

/-! ## Basic lemmas -/

theorem Entity.withChildren_get_kind (e : Entity) (ch : List Entity) :
    (e.withChildren ch).get_kind = e.get_kind := by
  cases e
  rfl

theorem Entity.withChildren_get_children (e : Entity) (ch : List Entity) :
    (e.withChildren ch).get_children = ch := by
  cases e
  rfl

/-- A typedef entity whose underlying type has no declaration entity makes the
dispatch step a no-op. -/
theorem visitChild_typedef_no_underlying (sf : SourceFile) (t : Entity)
    (hk : t.get_kind = .TypedefDecl)
    (hu : t.get_typedef_underlying_declaration = none) :
    SourceFile.visitChild sf t = .ok sf := by
  simp [SourceFile.visitChild, SourceFile.parse_type_declare, hk, hu]

/-- The dispatch loop ignores an interleaved entity whose step is a no-op. -/
theorem visitChildren_skip (t : Entity)
    (hstep : ∀ sf : SourceFile, SourceFile.visitChild sf t = .ok sf) :
    ∀ (l1 : List Entity) (sf : SourceFile) (l2 : List Entity),
      SourceFile.visitChildren sf (l1 ++ t :: l2)
        = SourceFile.visitChildren sf (l1 ++ l2)
  | [], sf, l2 => by
    show SourceFile.visitChildren sf (t :: l2) = SourceFile.visitChildren sf l2
    simp [SourceFile.visitChildren, hstep]
  | e :: rest, sf, l2 => by
    simp only [List.cons_append, SourceFile.visitChildren]
    cases SourceFile.visitChild sf e with
    | error err => rfl
    | ok sf2 => exact visitChildren_skip t hstep rest sf2 l2

/-- An unnamed argument anywhere in the argument list makes the argument loop
error out (at that argument, or earlier). -/
theorem visitArguments_unnamed (a : Entity) (ha : a.get_name = none) :
    ∀ (args1 args2 : List Entity) (f : FunctionDeclare),
      ∃ err, FunctionDeclare.visitArguments f (args1 ++ a :: args2) = .error err
  | [], args2, f => ⟨.unnamedParameter, by simp [FunctionDeclare.visitArguments, ha]⟩
  | b :: rest, args2, f => by
    cases hb : b.get_name with
    | none => exact ⟨.unnamedParameter, by simp [FunctionDeclare.visitArguments, hb]⟩
    | some n =>
      cases hp : ParameterDeclare.visit_entity (ParameterDeclare.new n) b with
      | error e => exact ⟨e, by simp [FunctionDeclare.visitArguments, hb, hp]⟩
      | ok p =>
        obtain ⟨err, he⟩ := visitArguments_unnamed a ha rest args2
          { f with parameters := f.parameters ++ [p] }
        exact ⟨err, by simp [FunctionDeclare.visitArguments, hb, hp, he]⟩

/-- A function child that is unnamed, or has an unnamed argument, makes the
dispatch step error out from any walker state. -/
theorem visitChild_function_poison (f : Entity) (hk : f.get_kind = .FunctionDecl)
    (h : f.get_name = none ∨
      ∃ args a, f.get_arguments = some args ∧ a ∈ args ∧ a.get_name = none) :
    ∀ sf : SourceFile, ∃ err, SourceFile.visitChild sf f = .error err := by
  intro sf
  cases hn : f.get_name with
  | none => exact ⟨.unnamedFunction, by simp [SourceFile.visitChild, hk, hn]⟩
  | some n =>
    rcases h with h | ⟨args, a, hargs, hmem, ha⟩
    · rw [hn] at h
      cases h
    · obtain ⟨s, t2, rfl⟩ := List.append_of_mem hmem
      have key : ∀ g : FunctionDeclare,
          ∃ err, FunctionDeclare.visit_entity g f = .error err := by
        intro g
        obtain ⟨err, he⟩ := visitArguments_unnamed a ha s t2
          { g with
            location := f.get_location.map SourceLocation.from_clang,
            return_type := f.get_result_type.map Ty.from_clang }
        refine ⟨err, ?_⟩
        unfold FunctionDeclare.visit_entity
        rw [if_neg (by simp [hk]), hargs]
        exact he
      obtain ⟨err, he⟩ := key (FunctionDeclare.new n)
      exact ⟨err, by simp [SourceFile.visitChild, hk, hn, he]⟩

/-- A poison child (one whose dispatch step errors out from any state) that is
a member of the child list makes the whole dispatch loop error out. -/
theorem visitChildren_poison (p : Entity)
    (hp : ∀ sf : SourceFile, ∃ err, SourceFile.visitChild sf p = .error err) :
    ∀ (l : List Entity), p ∈ l → ∀ sf : SourceFile,
      ∃ err, SourceFile.visitChildren sf l = .error err
  | [], hmem, _ => absurd hmem (List.not_mem_nil p)
  | e :: rest, hmem, sf => by
    cases hc : SourceFile.visitChild sf e with
    | error err => exact ⟨err, by simp [SourceFile.visitChildren, hc]⟩
    | ok sf2 =>
      rcases List.mem_cons.mp hmem with rfl | hmem2
      · obtain ⟨err, he⟩ := hp sf
        rw [he] at hc
        cases hc
      · obtain ⟨err, he⟩ := visitChildren_poison p hp rest hmem2 sf2
        exact ⟨err, by simp [SourceFile.visitChildren, hc, he]⟩

/-! ## Claim theorems -/

/-- Claim C6: a translation unit one of whose main-file children is a function
declaration entity that lacks a name, or that has a parameter entity lacking a
name, makes the walk abort fatally: the visit returns an error for every
starting path, and the per-file driver never produces a `SourceFile` model
(not even a partially populated one) for that translation unit. -/
theorem c6_unnamed_function_or_parameter_aborts (root f : Entity)
    (hmem : f ∈ root.get_children) (hmain : f.is_in_main_file = true)
    (hk : f.get_kind = .FunctionDecl)
    (h : f.get_name = none ∨
      ∃ args a, f.get_arguments = some args ∧ a ∈ args ∧ a.get_name = none) :
    (∀ path, ∃ err, SourceFile.visit_entity (SourceFile.new path) root = .error err) ∧
    (∀ res, processTranslationUnit root = some res → ∃ err, res = .error err) := by
  have hpois := visitChild_function_poison f hk h
  have main : ∀ sf : SourceFile, ∃ err, SourceFile.visit_entity sf root = .error err := by
    intro sf
    unfold SourceFile.visit_entity
    split
    · exact ⟨_, rfl⟩
    · exact visitChildren_poison f hpois _ (List.mem_filter.mpr ⟨hmem, hmain⟩) sf
  refine ⟨fun path => main _, ?_⟩
  intro res hres
  unfold processTranslationUnit at hres
  cases hn : root.get_name with
  | none =>
    rw [hn] at hres
    cases hres
  | some nm =>
    rw [hn] at hres
    obtain ⟨err, he⟩ := main (SourceFile.new nm)
    injection hres with h2
    exact ⟨err, by rw [← h2, he]⟩

/-- Witness for C6: a translation unit whose only child is `void f(int)` with
an unnamed parameter. -/
theorem c6_witness :
    ∃ err, SourceFile.visit_entity (SourceFile.new "f.c") unnamedParamTU = .error err :=
  (c6_unnamed_function_or_parameter_aborts unnamedParamTU unnamedParamFunEnt
      (List.mem_singleton_self _) rfl rfl
      (Or.inr ⟨[unnamedParmEnt], unnamedParmEnt, rfl, List.mem_singleton_self _, rfl⟩)).1 "f.c"

/-- Claim C5: every top-level child for which the is-in-main-file test is
false is skipped before any kind dispatch; the walk result with such an entity
interleaved anywhere among the children is identical to the result without
it, so no declaration node derived from it appears in either sequence. -/
theorem c5_main_file_scoping (sf : SourceFile) (root e : Entity)
    (l1 l2 : List Entity) (h : e.is_in_main_file = false) :
    SourceFile.visit_entity sf (root.withChildren (l1 ++ e :: l2))
      = SourceFile.visit_entity sf (root.withChildren (l1 ++ l2)) := by
  unfold SourceFile.visit_entity
  simp only [Entity.withChildren_get_kind, Entity.withChildren_get_children]
  have hfil : (l1 ++ e :: l2).filter (fun x => x.is_in_main_file)
      = (l1 ++ l2).filter (fun x => x.is_in_main_file) := by
    simp [List.filter_append, List.filter_cons, h]
  rw [hfil]

/-- Witness for C5: an out-of-main-file struct interleaved between the two
children of the `Point` translation unit leaves the walk result unchanged. -/
theorem c5_witness :
    headerStructEnt.is_in_main_file = false ∧
    SourceFile.visit_entity (SourceFile.new "point.c")
        (pointTU.withChildren ([pointStructEnt] ++ headerStructEnt :: [pointTypedefEnt]))
      = SourceFile.visit_entity (SourceFile.new "point.c")
        (pointTU.withChildren ([pointStructEnt] ++ [pointTypedefEnt])) :=
  ⟨rfl, c5_main_file_scoping _ _ _ _ _ rfl⟩

/-- Claim C7: a typedef entity whose underlying type resolves to a declaration
entity of a kind other than enum, struct or union, and which does not merge
onto an existing node, makes the walk abort with the
unsupported-typedef-underlying panic instead of appending any node. -/
theorem c7_typedef_unsupported_underlying (t d : Entity)
    (declares : List TypeDeclaration)
    (hk : t.get_kind = .TypedefDecl)
    (hu : t.get_typedef_underlying_declaration = some d)
    (h1 : d.get_kind ≠ .EnumDecl) (h2 : d.get_kind ≠ .StructDecl)
    (h3 : d.get_kind ≠ .UnionDecl)
    (hm : findMergeIdx t.get_name declares = none) :
    SourceFile.parse_type_declare t declares = .error .unexpectedTypedefUnderlying := by
  cases hd : d.get_kind
  case EnumDecl => exact absurd hd h1
  case StructDecl => exact absurd hd h2
  case UnionDecl => exact absurd hd h3
  all_goals simp [SourceFile.parse_type_declare, hk, hu, hm, hd]

/-- Witness for C7: `typedef T0 T1` where the underlying declaration is itself
a typedef, against an empty declaration sequence. -/
theorem c7_witness :
    SourceFile.parse_type_declare typedefOfTypedefEnt []
      = .error .unexpectedTypedefUnderlying :=
  c7_typedef_unsupported_underlying typedefOfTypedefEnt t0TypedefEnt [] rfl rfl
    (by decide) (by decide) (by decide) rfl

/-- Claim C10: a typedef entity whose underlying type has no declaration
entity is silently skipped: the dispatch step leaves the declaration sequence
unchanged and aborts nothing, and interleaving such an entity anywhere among
the root children leaves the whole walk result unchanged. -/
theorem c10_typedef_primitive_skipped (t : Entity)
    (hk : t.get_kind = .TypedefDecl)
    (hu : t.get_typedef_underlying_declaration = none) :
    (∀ declares, SourceFile.parse_type_declare t declares = .ok declares) ∧
    (∀ (sf : SourceFile) (root : Entity) (l1 l2 : List Entity),
      SourceFile.visit_entity sf (root.withChildren (l1 ++ t :: l2))
        = SourceFile.visit_entity sf (root.withChildren (l1 ++ l2))) := by
  refine ⟨fun declares => by simp [SourceFile.parse_type_declare, hk, hu], ?_⟩
  intro sf root l1 l2
  unfold SourceFile.visit_entity
  simp only [Entity.withChildren_get_kind, Entity.withChildren_get_children]
  split
  · rfl
  · cases hm : t.is_in_main_file with
    | false =>
      have hfil : (l1 ++ t :: l2).filter (fun x => x.is_in_main_file)
          = (l1 ++ l2).filter (fun x => x.is_in_main_file) := by
        simp [List.filter_append, List.filter_cons, hm]
      rw [hfil]
    | true =>
      have hfil : (l1 ++ t :: l2).filter (fun x => x.is_in_main_file)
          = l1.filter (fun x => x.is_in_main_file)
              ++ t :: l2.filter (fun x => x.is_in_main_file) := by
        simp [List.filter_append, List.filter_cons, hm]
      have hfil2 : (l1 ++ l2).filter (fun x => x.is_in_main_file)
          = l1.filter (fun x => x.is_in_main_file)
              ++ l2.filter (fun x => x.is_in_main_file) := by
        simp [List.filter_append]
      rw [hfil, hfil2]
      exact visitChildren_skip t
        (fun sf2 => visitChild_typedef_no_underlying sf2 t hk hu) _ sf _

/-- Witness for C10: `typedef int MyInt` leaves an empty declaration sequence
unchanged and leaves the walk of the `Point` translation unit unchanged when
interleaved between its two children. -/
theorem c10_witness :
    SourceFile.parse_type_declare typedefIntEnt [] = .ok [] ∧
    SourceFile.visit_entity (SourceFile.new "point.c")
        (pointTU.withChildren ([pointStructEnt] ++ typedefIntEnt :: [pointTypedefEnt]))
      = SourceFile.visit_entity (SourceFile.new "point.c")
        (pointTU.withChildren ([pointStructEnt] ++ [pointTypedefEnt])) :=
  ⟨(c10_typedef_primitive_skipped typedefIntEnt rfl rfl).1 [],
   (c10_typedef_primitive_skipped typedefIntEnt rfl rfl).2 _ _ _ _⟩

/-- Claim C1 (code bug): the spec says a named top-level union declaration in
the main file yields a `UnionDeclare` node appended to the type-declaration
sequence, and `parse_type_declare` indeed contains an arm doing exactly that;
but the top-level dispatch of `SourceFile::visit_entity` omits the union kind,
so the walk aborts with the unexpected-entity panic instead.  At the failing
input `union U { int x; };` the walk errors while a direct call of
`parse_type_declare` on the same entity would append the expected node. -/
theorem c1_union_toplevel_aborts :
    processTranslationUnit unionTU = some (.error .unexpectedTopLevelEntity) ∧
    (SourceFile.parse_type_declare unionUEnt []).map
        (fun ds => ds.map (fun d => (d.isUnion, d.name, d.typedef_name)))
      = .ok [(true, some "U", none)] :=
  ⟨rfl, rfl⟩

/-- Claim C2: for the input `typedef struct Point { int x; int y; } Point;`
the walk produces exactly one type-declaration node, a `StructDeclare` with
tag name `Point` and typedef alias `Point`; no second node is created. -/
theorem c2_typedef_merge_idempotent :
    (processTranslationUnit pointTU).map (Except.map (fun sf =>
        (sf.type_declares.map (fun d => (d.isStruct, d.name, d.typedef_name)),
         sf.function_declares.length)))
      = some (.ok ([(true, some "Point", some "Point")], 0)) :=
  rfl

/-- Claim C4: for the input `typedef struct { int x; } Vec2;` the walk
produces exactly one type-declaration node, a `StructDeclare` with tag name
absent and typedef alias `Vec2`; the anonymous struct entity itself
contributes no separate node. -/
theorem c4_anonymous_typedef :
    (processTranslationUnit vec2TU).map (Except.map (fun sf =>
        (sf.type_declares.map (fun d => (d.isStruct, d.name, d.typedef_name)),
         sf.function_declares.length)))
      = some (.ok ([(true, none, some "Vec2")], 0)) :=
  rfl

/-- Counterexample to claim C8 as stated: a typedef entity carrying no name
whose underlying declaration is an anonymous struct makes the walk complete
with a node whose tag name and typedef alias are both absent. -/
theorem c8_counterexample :
    (processTranslationUnit namelessTypedefTU).map (Except.map (fun sf =>
        sf.type_declares.map (fun d => (d.name, d.typedef_name))))
      = some (.ok [(none, none)]) :=
  rfl

/-! ## Ordering lemmas (claim C3) -/

theorem TypeDeclaration.name_set_typedef_name (d : TypeDeclaration) (tn : String) :
    (d.set_typedef_name tn).name = d.name := by
  cases d <;> rfl

theorem TypeDeclaration.typedef_name_set_typedef_name (d : TypeDeclaration) (tn : String) :
    (d.set_typedef_name tn).typedef_name = some tn := by
  cases d <;> rfl

theorem modifyTypedefName_length :
    ∀ (l : List TypeDeclaration) (i : Nat) (tn : String),
      (modifyTypedefName l i tn).length = l.length
  | [], _, _ => rfl
  | _ :: rest, 0, tn => by simp [modifyTypedefName]
  | d :: rest, i + 1, tn => by
    simp [modifyTypedefName, modifyTypedefName_length rest i tn]

theorem modifyTypedefName_map_name :
    ∀ (l : List TypeDeclaration) (i : Nat) (tn : String),
      (modifyTypedefName l i tn).map TypeDeclaration.name = l.map TypeDeclaration.name
  | [], _, _ => rfl
  | d :: rest, 0, tn => by
    simp [modifyTypedefName, TypeDeclaration.name_set_typedef_name]
  | d :: rest, i + 1, tn => by
    simp [modifyTypedefName, modifyTypedefName_map_name rest i tn]

theorem modifyTypedefName_get?_eq :
    ∀ (l : List TypeDeclaration) (i : Nat) (tn : String),
      (modifyTypedefName l i tn).get? i
        = (l.get? i).map (fun d => d.set_typedef_name tn)
  | [], _, _ => rfl
  | _ :: _, 0, _ => rfl
  | _ :: rest, i + 1, tn => modifyTypedefName_get?_eq rest i tn

theorem modifyTypedefName_get?_ne :
    ∀ (l : List TypeDeclaration) (i : Nat) (tn : String) (j : Nat), j ≠ i →
      (modifyTypedefName l i tn).get? j = l.get? j
  | [], _, _, _, _ => rfl
  | d :: rest, 0, tn, 0, h => absurd rfl h
  | d :: rest, 0, tn, j + 1, h => by simp [modifyTypedefName]
  | d :: rest, i + 1, tn, 0, h => by simp [modifyTypedefName]
  | d :: rest, i + 1, tn, j + 1, h => by
    simp only [modifyTypedefName, List.get?_cons_succ]
    exact modifyTypedefName_get?_ne rest i tn j (fun hh => h (by rw [hh]))

/-- Every successful `parse_type_declare` step either leaves the sequence
unchanged, appends exactly one node at the end, or updates the first merge
match in place; nothing is ever removed or reordered. -/
theorem parse_type_declare_shape (e : Entity) (l l' : List TypeDeclaration)
    (h : SourceFile.parse_type_declare e l = .ok l') :
    l' = l ∨ (∃ d, l' = l ++ [d]) ∨
      (∃ i tn, findMergeIdx e.get_name l = some i ∧ l' = modifyTypedefName l i tn) := by
  unfold SourceFile.parse_type_declare at h
  repeat' split at h
  all_goals
    first
      | exact Except.noConfusion h
      | (injection h with h1
         first
           | exact Or.inl h1.symm
           | exact Or.inr (Or.inl ⟨_, h1.symm⟩)
           | exact Or.inr (Or.inr ⟨_, _, by assumption, h1.symm⟩))

/-- Decomposition of the dispatch loop: on success, the final type-declaration
sequence is the left fold of `parse_type_declare` over the type-kind children
in order, and the function sequence extends the initial one by the in-order
function nodes of the function-kind children. -/
theorem visitChildren_decompose :
    ∀ (es : List Entity) (sf0 sf : SourceFile),
      SourceFile.visitChildren sf0 es = .ok sf →
      parseAll sf0.type_declares (es.filter isTypeDeclChild) = .ok sf.type_declares ∧
      ∃ fs, funNodes (es.filter isFunDeclChild) = .ok fs ∧
            sf.function_declares = sf0.function_declares ++ fs ∧
            sf.path = sf0.path
  | [], sf0, sf, h => by
    injection h with h1
    subst h1
    exact ⟨rfl, [], rfl, by simp, rfl⟩
  | e :: rest, sf0, sf, h => by
    cases hc : SourceFile.visitChild sf0 e with
    | error err => simp [SourceFile.visitChildren, hc] at h
    | ok sf1 =>
      have hrest : SourceFile.visitChildren sf1 rest = .ok sf := by
        simpa [SourceFile.visitChildren, hc] using h
      obtain ⟨hT, fs, hF, hfd, hpath⟩ := visitChildren_decompose rest sf1 sf hrest
      have stepT :
          ∀ _ : isTypeDeclChild e = true,
            (match SourceFile.parse_type_declare e sf0.type_declares with
              | .error err => (.error err : Except VisitError SourceFile)
              | .ok ds => .ok { sf0 with type_declares := ds }) = .ok sf1 →
            parseAll sf0.type_declares ((e :: rest).filter isTypeDeclChild)
                = .ok sf.type_declares ∧
            ∃ gs, funNodes ((e :: rest).filter isFunDeclChild) = .ok gs ∧
                  sf.function_declares = sf0.function_declares ++ gs ∧
                  sf.path = sf0.path := by
        intro htc hc2
        cases hp : SourceFile.parse_type_declare e sf0.type_declares with
        | error err => rw [hp] at hc2; cases hc2
        | ok ds =>
          rw [hp] at hc2
          injection hc2 with hc1
          subst hc1
          have hfc : isFunDeclChild e = false := by
            revert htc
            simp [isTypeDeclChild, isFunDeclChild]
            cases e.get_kind <;> simp
          refine ⟨?_, fs, ?_, ?_, ?_⟩
          · simpa [List.filter_cons, htc, parseAll, hp] using hT
          · simpa [List.filter_cons, hfc] using hF
          · exact hfd
          · exact hpath
      cases hk : e.get_kind with
      | EnumDecl =>
        simp only [SourceFile.visitChild, hk] at hc
        exact stepT (by simp [isTypeDeclChild, hk]) hc
      | StructDecl =>
        simp only [SourceFile.visitChild, hk] at hc
        exact stepT (by simp [isTypeDeclChild, hk]) hc
      | TypedefDecl =>
        simp only [SourceFile.visitChild, hk] at hc
        exact stepT (by simp [isTypeDeclChild, hk]) hc
      | FunctionDecl =>
        simp only [SourceFile.visitChild, hk] at hc
        cases hn : e.get_name with
        | none =>
          simp only [hn] at hc
          exact Except.noConfusion hc
        | some n =>
          simp only [hn] at hc
          cases hv : FunctionDeclare.visit_entity (FunctionDeclare.new n) e with
          | error err =>
            simp only [hv] at hc
            exact Except.noConfusion hc
          | ok fd =>
            simp only [hv] at hc
            injection hc with hc1
            subst hc1
            have htc : isTypeDeclChild e = false := by simp [isTypeDeclChild, hk]
            have hfc : isFunDeclChild e = true := by simp [isFunDeclChild, hk]
            refine ⟨?_, fd :: fs, ?_, ?_, ?_⟩
            · simpa [List.filter_cons, htc] using hT
            · simp [List.filter_cons, hfc, funNodes, funNode, hn, hv, hF]
            · rw [hfd]
              simp
            · exact hpath
      | TranslationUnit =>
        simp only [SourceFile.visitChild, hk] at hc
        exact Except.noConfusion hc
      | UnionDecl =>
        simp only [SourceFile.visitChild, hk] at hc
        exact Except.noConfusion hc
      | FieldDecl =>
        simp only [SourceFile.visitChild, hk] at hc
        exact Except.noConfusion hc
      | ParmDecl =>
        simp only [SourceFile.visitChild, hk] at hc
        exact Except.noConfusion hc
      | EnumConstantDecl =>
        simp only [SourceFile.visitChild, hk] at hc
        exact Except.noConfusion hc
      | VarDecl =>
        simp only [SourceFile.visitChild, hk] at hc
        exact Except.noConfusion hc

/-- Claim C3: both sequences of the resulting `SourceFile` list their nodes in
the frontend order of the corresponding root children (the type-declaration
sequence is the in-order fold of `parse_type_declare` over the type-kind
children and the function sequence is the in-order list of function nodes);
each fold step only appends at the end or updates the first merge match in
place; and the in-place update preserves length, tag names and every other
index, so no element of either sequence is moved or removed. -/
theorem c3_order_preservation (path : String) (root : Entity) (sf : SourceFile)
    (h : SourceFile.visit_entity (SourceFile.new path) root = .ok sf) :
    parseAll [] (typeDeclChildren root) = .ok sf.type_declares ∧
    funNodes (funDeclChildren root) = .ok sf.function_declares ∧
    (∀ (l : List TypeDeclaration) (e : Entity) (l' : List TypeDeclaration),
      SourceFile.parse_type_declare e l = .ok l' →
        l' = l ∨ (∃ d, l' = l ++ [d]) ∨
          (∃ i tn, findMergeIdx e.get_name l = some i ∧ l' = modifyTypedefName l i tn)) ∧
    (∀ (l : List TypeDeclaration) (i : Nat) (tn : String),
      (modifyTypedefName l i tn).length = l.length ∧
      (modifyTypedefName l i tn).map TypeDeclaration.name = l.map TypeDeclaration.name ∧
      (modifyTypedefName l i tn).get? i = (l.get? i).map (fun d => d.set_typedef_name tn) ∧
      ∀ j, j ≠ i → (modifyTypedefName l i tn).get? j = l.get? j) := by
  unfold SourceFile.visit_entity at h
  split at h
  · cases h
  · obtain ⟨hT, fs, hF, hfd, hpath⟩ := visitChildren_decompose _ _ _ h
    have hfs : fs = sf.function_declares := by simpa using hfd.symm
    subst hfs
    refine ⟨hT, hF, fun l e l' hp => parse_type_declare_shape e l l' hp, fun l i tn => ?_⟩
    exact ⟨modifyTypedefName_length l i tn, modifyTypedefName_map_name l i tn,
      modifyTypedefName_get?_eq l i tn, fun j hj => modifyTypedefName_get?_ne l i tn j hj⟩

/-- Witness for C3 at the translation unit
`struct A {}; struct B {}; typedef struct B B;`, whose walk merges the typedef
onto the node at index 1 in place. -/
theorem c3_witness :
    (parseAll [] (typeDeclChildren orderTU) = .ok orderSF.type_declares ∧
      funNodes (funDeclChildren orderTU) = .ok orderSF.function_declares ∧
      (∀ (l : List TypeDeclaration) (e : Entity) (l' : List TypeDeclaration),
        SourceFile.parse_type_declare e l = .ok l' →
          l' = l ∨ (∃ d, l' = l ++ [d]) ∨
            (∃ i tn, findMergeIdx e.get_name l = some i ∧ l' = modifyTypedefName l i tn)) ∧
      (∀ (l : List TypeDeclaration) (i : Nat) (tn : String),
        (modifyTypedefName l i tn).length = l.length ∧
        (modifyTypedefName l i tn).map TypeDeclaration.name = l.map TypeDeclaration.name ∧
        (modifyTypedefName l i tn).get? i = (l.get? i).map (fun d => d.set_typedef_name tn) ∧
        ∀ j, j ≠ i → (modifyTypedefName l i tn).get? j = l.get? j)) :=
  c3_order_preservation "order.c" orderTU orderSF rfl

/-! ## Tag-or-alias invariant (claim C8) -/

/-- Population of an enum node never changes its names. -/
theorem EnumDeclare.visitConstants_names :
    ∀ (cs : List Entity) (self self' : EnumDeclare),
      EnumDeclare.visitConstants self cs = .ok self' →
      self'.enum_name = self.enum_name ∧ self'.typedef_name = self.typedef_name
  | [], _, _, h => by
    injection h with h1
    subst h1
    exact ⟨rfl, rfl⟩
  | c :: rest, self, self', h => by
    cases hn : c.get_name with
    | none =>
      simp only [EnumDeclare.visitConstants, hn] at h
      exact Except.noConfusion h
    | some n =>
      simp only [EnumDeclare.visitConstants, hn] at h
      cases hv : EnumConstantDeclare.visit_entity (EnumConstantDeclare.new n) c with
      | error err =>
        simp only [hv] at h
        exact Except.noConfusion h
      | ok cd =>
        simp only [hv] at h
        exact EnumDeclare.visitConstants_names rest
          { self with constants := self.constants ++ [cd] } self' h

theorem enum_visit_entity_names (e : Entity) (self self' : EnumDeclare)
    (h : EnumDeclare.visit_entity self e = .ok self') :
    self'.enum_name = self.enum_name ∧ self'.typedef_name = self.typedef_name := by
  unfold EnumDeclare.visit_entity at h
  split at h
  · exact Except.noConfusion h
  · exact EnumDeclare.visitConstants_names e.get_children
      { self with
        enum_type := e.get_enum_underlying_type.map Ty.from_clang,
        location := e.get_location.map SourceLocation.from_clang } self' h

/-- Population of a union node never changes its names. -/
theorem UnionDeclare.visitFields_names :
    ∀ (cs : List Entity) (self self' : UnionDeclare),
      UnionDeclare.visitFields self cs = .ok self' →
      self'.union_name = self.union_name ∧ self'.typedef_name = self.typedef_name
  | [], _, _, h => by
    injection h with h1
    subst h1
    exact ⟨rfl, rfl⟩
  | c :: rest, self, self', h => by
    cases hv : FieldDeclare.visit_entity (FieldDeclare.new c.get_name) c with
    | error err =>
      simp only [UnionDeclare.visitFields, hv] at h
      exact Except.noConfusion h
    | ok fd =>
      simp only [UnionDeclare.visitFields, hv] at h
      exact UnionDeclare.visitFields_names rest
        { self with fields := self.fields ++ [fd] } self' h

theorem union_visit_entity_names (e : Entity) (self self' : UnionDeclare)
    (h : UnionDeclare.visit_entity self e = .ok self') :
    self'.union_name = self.union_name ∧ self'.typedef_name = self.typedef_name := by
  unfold UnionDeclare.visit_entity at h
  split at h
  · exact Except.noConfusion h
  · exact UnionDeclare.visitFields_names e.get_children
      { self with location := e.get_location.map SourceLocation.from_clang } self' h

/-- Population of a struct node never changes its names. -/
theorem StructDeclare.visitMembers_names :
    ∀ (cs : List Entity) (self self' : StructDeclare),
      StructDeclare.visitMembers self cs = .ok self' →
      self'.struct_name = self.struct_name ∧ self'.typedef_name = self.typedef_name
  | [], _, _, h => by
    injection h with h1
    subst h1
    exact ⟨rfl, rfl⟩
  | c :: rest, self, self', h => by
    cases hck : c.get_kind with
    | FieldDecl =>
      simp only [StructDeclare.visitMembers, hck] at h
      cases hv : FieldDeclare.visit_entity (FieldDeclare.new c.get_name) c with
      | error err =>
        simp only [hv] at h
        exact Except.noConfusion h
      | ok fd =>
        simp only [hv] at h
        exact StructDeclare.visitMembers_names rest
          { self with fields := self.fields ++ [.field fd] } self' h
    | UnionDecl =>
      simp only [StructDeclare.visitMembers, hck] at h
      cases hv : UnionDeclare.visit_entity (UnionDeclare.new c.get_name none) c with
      | error err =>
        simp only [hv] at h
        exact Except.noConfusion h
      | ok ud =>
        simp only [hv] at h
        exact StructDeclare.visitMembers_names rest
          { self with fields := self.fields ++ [.nestedUnion ud] } self' h
    | TranslationUnit =>
      simp only [StructDeclare.visitMembers, hck] at h
      exact Except.noConfusion h
    | EnumDecl =>
      simp only [StructDeclare.visitMembers, hck] at h
      exact Except.noConfusion h
    | StructDecl =>
      simp only [StructDeclare.visitMembers, hck] at h
      exact Except.noConfusion h
    | TypedefDecl =>
      simp only [StructDeclare.visitMembers, hck] at h
      exact Except.noConfusion h
    | FunctionDecl =>
      simp only [StructDeclare.visitMembers, hck] at h
      exact Except.noConfusion h
    | ParmDecl =>
      simp only [StructDeclare.visitMembers, hck] at h
      exact Except.noConfusion h
    | EnumConstantDecl =>
      simp only [StructDeclare.visitMembers, hck] at h
      exact Except.noConfusion h
    | VarDecl =>
      simp only [StructDeclare.visitMembers, hck] at h
      exact Except.noConfusion h

theorem struct_visit_entity_names (e : Entity) (self self' : StructDeclare)
    (h : StructDeclare.visit_entity self e = .ok self') :
    self'.struct_name = self.struct_name ∧ self'.typedef_name = self.typedef_name := by
  unfold StructDeclare.visit_entity at h
  split at h
  · exact Except.noConfusion h
  · exact StructDeclare.visitMembers_names e.get_children
      { self with location := e.get_location.map SourceLocation.from_clang } self' h

/-- Every member of the in-place updated sequence comes from the original
sequence, possibly with its typedef alias set. -/
theorem mem_modifyTypedefName :
    ∀ (l : List TypeDeclaration) (i : Nat) (tn : String) (d : TypeDeclaration),
      d ∈ modifyTypedefName l i tn →
      ∃ d0, d0 ∈ l ∧ (d = d0 ∨ d = d0.set_typedef_name tn)
  | [], _, _, d, hd => absurd hd (List.not_mem_nil d)
  | d1 :: _, 0, tn, d, hd => by
    rcases List.mem_cons.mp hd with rfl | hd2
    · exact ⟨d1, List.mem_cons_self _ _, Or.inr rfl⟩
    · exact ⟨d, List.mem_cons_of_mem _ hd2, Or.inl rfl⟩
  | _ :: rest, i + 1, tn, d, hd => by
    rcases List.mem_cons.mp hd with rfl | hd2
    · exact ⟨d, List.mem_cons_self _ _, Or.inl rfl⟩
    · obtain ⟨d0, hd0, hor⟩ := mem_modifyTypedefName rest i tn d hd2
      exact ⟨d0, List.mem_cons_of_mem _ hd0, hor⟩

/-- One `parse_type_declare` step preserves the tag-or-alias invariant,
provided the entity, when a typedef, carries a name. -/
theorem parse_type_declare_tagOrAlias (e : Entity) (l l' : List TypeDeclaration)
    (hname : isTypedefKind e = true → e.get_name.isSome)
    (hl : ∀ d ∈ l, TagOrAlias d)
    (h : SourceFile.parse_type_declare e l = .ok l') :
    ∀ d ∈ l', TagOrAlias d := by
  cases hk : e.get_kind with
  | EnumDecl =>
    cases hn : e.get_name with
    | none =>
      simp only [SourceFile.parse_type_declare, hk, hn] at h
      injection h with h1
      subst h1
      exact hl
    | some nm =>
      simp only [SourceFile.parse_type_declare, hk, hn] at h
      cases hv : EnumDeclare.visit_entity (EnumDeclare.new (some nm) none) e with
      | error err =>
        simp only [hv] at h
        exact Except.noConfusion h
      | ok d0 =>
        simp only [hv] at h
        injection h with h1
        subst h1
        intro d hd
        rcases List.mem_append.mp hd with hd2 | hd2
        · exact hl d hd2
        · rcases List.mem_singleton.mp hd2 with rfl
          exact Or.inl (by
            simp [TypeDeclaration.name, (enum_visit_entity_names e _ _ hv).1,
              EnumDeclare.new])
  | StructDecl =>
    cases hn : e.get_name with
    | none =>
      simp only [SourceFile.parse_type_declare, hk, hn] at h
      injection h with h1
      subst h1
      exact hl
    | some nm =>
      simp only [SourceFile.parse_type_declare, hk, hn] at h
      cases hv : StructDeclare.visit_entity (StructDeclare.new (some nm) none) e with
      | error err =>
        simp only [hv] at h
        exact Except.noConfusion h
      | ok d0 =>
        simp only [hv] at h
        injection h with h1
        subst h1
        intro d hd
        rcases List.mem_append.mp hd with hd2 | hd2
        · exact hl d hd2
        · rcases List.mem_singleton.mp hd2 with rfl
          exact Or.inl (by
            simp [TypeDeclaration.name, (struct_visit_entity_names e _ _ hv).1,
              StructDeclare.new])
  | UnionDecl =>
    cases hn : e.get_name with
    | none =>
      simp only [SourceFile.parse_type_declare, hk, hn] at h
      injection h with h1
      subst h1
      exact hl
    | some nm =>
      simp only [SourceFile.parse_type_declare, hk, hn] at h
      cases hv : UnionDeclare.visit_entity (UnionDeclare.new (some nm) none) e with
      | error err =>
        simp only [hv] at h
        exact Except.noConfusion h
      | ok d0 =>
        simp only [hv] at h
        injection h with h1
        subst h1
        intro d hd
        rcases List.mem_append.mp hd with hd2 | hd2
        · exact hl d hd2
        · rcases List.mem_singleton.mp hd2 with rfl
          exact Or.inl (by
            simp [TypeDeclaration.name, (union_visit_entity_names e _ _ hv).1,
              UnionDeclare.new])
  | TypedefDecl =>
    have hsome : e.get_name.isSome := hname (by simp [isTypedefKind, hk])
    cases hu : e.get_typedef_underlying_declaration with
    | none =>
      simp only [SourceFile.parse_type_declare, hk, hu] at h
      injection h with h1
      subst h1
      exact hl
    | some de =>
      cases hm : findMergeIdx e.get_name l with
      | some i =>
        cases hn : e.get_name with
        | none =>
          rw [hn] at hsome
          simp at hsome
        | some tn =>
          rw [hn] at hm
          simp only [SourceFile.parse_type_declare, hk, hu, hn, hm] at h
          injection h with h1
          subst h1
          intro d hd
          obtain ⟨d0, hd0, heq | heq⟩ := mem_modifyTypedefName l i tn d hd
          · rw [heq]
            exact hl d0 hd0
          · rw [heq]
            exact Or.inr (by
              simp [TypeDeclaration.typedef_name_set_typedef_name])
      | none =>
        cases hdk : de.get_kind with
        | EnumDecl =>
          simp only [SourceFile.parse_type_declare, hk, hu, hm, hdk] at h
          cases hv : EnumDeclare.visit_entity (EnumDeclare.new none e.get_name) de with
          | error err =>
            simp only [hv] at h
            exact Except.noConfusion h
          | ok d0 =>
            simp only [hv] at h
            injection h with h1
            subst h1
            intro d hd
            rcases List.mem_append.mp hd with hd2 | hd2
            · exact hl d hd2
            · rcases List.mem_singleton.mp hd2 with rfl
              refine Or.inr ?_
              have := (enum_visit_entity_names de _ _ hv).2
              simp only [TypeDeclaration.typedef_name, this, EnumDeclare.new]
              exact hsome
        | StructDecl =>
          simp only [SourceFile.parse_type_declare, hk, hu, hm, hdk] at h
          cases hv : StructDeclare.visit_entity (StructDeclare.new none e.get_name) de with
          | error err =>
            simp only [hv] at h
            exact Except.noConfusion h
          | ok d0 =>
            simp only [hv] at h
            injection h with h1
            subst h1
            intro d hd
            rcases List.mem_append.mp hd with hd2 | hd2
            · exact hl d hd2
            · rcases List.mem_singleton.mp hd2 with rfl
              refine Or.inr ?_
              have := (struct_visit_entity_names de _ _ hv).2
              simp only [TypeDeclaration.typedef_name, this, StructDeclare.new]
              exact hsome
        | UnionDecl =>
          simp only [SourceFile.parse_type_declare, hk, hu, hm, hdk] at h
          cases hv : UnionDeclare.visit_entity (UnionDeclare.new none e.get_name) de with
          | error err =>
            simp only [hv] at h
            exact Except.noConfusion h
          | ok d0 =>
            simp only [hv] at h
            injection h with h1
            subst h1
            intro d hd
            rcases List.mem_append.mp hd with hd2 | hd2
            · exact hl d hd2
            · rcases List.mem_singleton.mp hd2 with rfl
              refine Or.inr ?_
              have := (union_visit_entity_names de _ _ hv).2
              simp only [TypeDeclaration.typedef_name, this, UnionDeclare.new]
              exact hsome
        | TranslationUnit => simp [SourceFile.parse_type_declare, hk, hu, hm, hdk] at h
        | TypedefDecl => simp [SourceFile.parse_type_declare, hk, hu, hm, hdk] at h
        | FunctionDecl => simp [SourceFile.parse_type_declare, hk, hu, hm, hdk] at h
        | FieldDecl => simp [SourceFile.parse_type_declare, hk, hu, hm, hdk] at h
        | ParmDecl => simp [SourceFile.parse_type_declare, hk, hu, hm, hdk] at h
        | EnumConstantDecl => simp [SourceFile.parse_type_declare, hk, hu, hm, hdk] at h
        | VarDecl => simp [SourceFile.parse_type_declare, hk, hu, hm, hdk] at h
  | TranslationUnit => simp [SourceFile.parse_type_declare, hk] at h
  | FunctionDecl => simp [SourceFile.parse_type_declare, hk] at h
  | FieldDecl => simp [SourceFile.parse_type_declare, hk] at h
  | ParmDecl => simp [SourceFile.parse_type_declare, hk] at h
  | EnumConstantDecl => simp [SourceFile.parse_type_declare, hk] at h
  | VarDecl => simp [SourceFile.parse_type_declare, hk] at h

/-- A successful dispatch step either leaves the type-declaration sequence
unchanged or produces it by a successful `parse_type_declare` step. -/
theorem visitChild_type_declares (sf0 sf1 : SourceFile) (e : Entity)
    (hc : SourceFile.visitChild sf0 e = .ok sf1) :
    sf1.type_declares = sf0.type_declares ∨
      SourceFile.parse_type_declare e sf0.type_declares = .ok sf1.type_declares := by
  unfold SourceFile.visitChild at hc
  repeat' split at hc
  all_goals
    first
      | exact Except.noConfusion hc
      | (injection hc with hc1
         subst hc1
         first
           | exact Or.inl rfl
           | exact Or.inr (by assumption))

/-- The dispatch loop preserves the tag-or-alias invariant, provided every
typedef entity among the children carries a name. -/
theorem visitChildren_tagOrAlias :
    ∀ (es : List Entity) (sf0 sf : SourceFile),
      (∀ e ∈ es, isTypedefKind e = true → e.get_name.isSome) →
      (∀ d ∈ sf0.type_declares, TagOrAlias d) →
      SourceFile.visitChildren sf0 es = .ok sf →
      ∀ d ∈ sf.type_declares, TagOrAlias d
  | [], _, _, _, h0, h => by
    injection h with h1
    subst h1
    exact h0
  | e :: rest, sf0, sf, hes, h0, h => by
    cases hc : SourceFile.visitChild sf0 e with
    | error err => simp [SourceFile.visitChildren, hc] at h
    | ok sf1 =>
      have hrest : SourceFile.visitChildren sf1 rest = .ok sf := by
        simpa [SourceFile.visitChildren, hc] using h
      have h1 : ∀ d ∈ sf1.type_declares, TagOrAlias d := by
        rcases visitChild_type_declares sf0 sf1 e hc with heq | hp
        · rw [heq]
          exact h0
        · exact parse_type_declare_tagOrAlias e _ _
            (hes e (List.mem_cons_self _ _)) h0 hp
      exact visitChildren_tagOrAlias rest sf1 sf
        (fun x hx => hes x (List.mem_cons_of_mem _ hx)) h1 hrest

/-- Claim C8, amended: provided every typedef entity among the root children
carries a name (as the frontend guarantees for parsed C), every node of the
resulting type-declaration sequence has at least one of its tag name and its
typedef alias present. -/
theorem c8_tag_or_alias (path : String) (root : Entity) (sf : SourceFile)
    (hnames : typedefsNamed root = true)
    (h : SourceFile.visit_entity (SourceFile.new path) root = .ok sf) :
    ∀ d ∈ sf.type_declares, d.name.isSome ∨ d.typedef_name.isSome := by
  unfold SourceFile.visit_entity at h
  split at h
  · exact Except.noConfusion h
  · have hes : ∀ e ∈ root.get_children.filter (fun x => x.is_in_main_file),
        isTypedefKind e = true → e.get_name.isSome := by
      intro e he ht
      have hb := List.all_eq_true.mp hnames e (List.mem_filter.mp he).1
      rw [ht] at hb
      simpa using hb
    exact visitChildren_tagOrAlias _ _ _ hes
      (fun d hd => absurd hd (List.not_mem_nil d)) h

/-- Witness for C8 (amended) at the translation unit
`struct A {}; struct B {}; typedef struct B B;`. -/
theorem c8_witness :
    typedefsNamed orderTU = true ∧
    ∀ d ∈ orderSF.type_declares, d.name.isSome ∨ d.typedef_name.isSome :=
  ⟨rfl, c8_tag_or_alias "order.c" orderTU orderSF rfl rfl⟩

/-- Counterexample to claim C9 as stated: union member population passes every
child to `FieldDeclare` population, so a union containing a struct declaration
child (valid C: `struct S { union { struct Inner { int x; } i; } u; };`)
reaches the field kind assertion with a struct entity and the assertion
fails. -/
theorem c9_counterexample :
    processTranslationUnit nestedStructTU
      = some (.error (.kindMismatch .FieldDecl .StructDecl)) :=
  rfl

/-! ## Kind assertions under frontend kind discipline (claim C9) -/

theorem isFieldKind_eq (c : Entity) (h : isFieldKind c = true) :
    c.get_kind = .FieldDecl := by
  cases hk : c.get_kind
  case FieldDecl => rfl
  all_goals simp [isFieldKind, hk] at h

theorem isEnumConstantKind_eq (c : Entity) (h : isEnumConstantKind c = true) :
    c.get_kind = .EnumConstantDecl := by
  cases hk : c.get_kind
  case EnumConstantDecl => rfl
  all_goals simp [isEnumConstantKind, hk] at h

theorem isParmKind_eq (c : Entity) (h : isParmKind c = true) :
    c.get_kind = .ParmDecl := by
  cases hk : c.get_kind
  case ParmDecl => rfl
  all_goals simp [isParmKind, hk] at h

theorem wfKinds_destruct (e : Entity) (h : e.wfKinds = true) :
    wfKindsLocal e.get_kind e.get_children e.get_arguments = true ∧
    wfKindsList e.get_children = true ∧
    wfKindsOpt e.get_typedef_underlying_declaration = true ∧
    wfKindsArgs e.get_arguments = true := by
  cases e with
  | mk k n ch m loc und eut ty rt args ecv =>
    simp only [Entity.wfKinds, Bool.and_eq_true] at h
    exact ⟨h.1.1.1, h.1.1.2, h.1.2, h.2⟩

theorem wfKindsList_mem :
    ∀ (l : List Entity), wfKindsList l = true → ∀ e ∈ l, e.wfKinds = true
  | [], _, e, he => absurd he (List.not_mem_nil e)
  | x :: rest, h, e, he => by
    simp only [wfKindsList, Bool.and_eq_true] at h
    rcases List.mem_cons.mp he with rfl | he2
    · exact h.1
    · exact wfKindsList_mem rest h.2 e he2

theorem wfKindsLocal_union (e : Entity) (hk : e.get_kind = .UnionDecl)
    (h : wfKindsLocal e.get_kind e.get_children e.get_arguments = true) :
    ∀ c ∈ e.get_children, c.get_kind = .FieldDecl := by
  rw [hk] at h
  simp only [wfKindsLocal] at h
  intro c hc
  exact isFieldKind_eq c (List.all_eq_true.mp h c hc)

theorem wfKindsLocal_enum (e : Entity) (hk : e.get_kind = .EnumDecl)
    (h : wfKindsLocal e.get_kind e.get_children e.get_arguments = true) :
    ∀ c ∈ e.get_children, c.get_kind = .EnumConstantDecl := by
  rw [hk] at h
  simp only [wfKindsLocal] at h
  intro c hc
  exact isEnumConstantKind_eq c (List.all_eq_true.mp h c hc)

theorem wfKindsLocal_fun (e : Entity) (hk : e.get_kind = .FunctionDecl)
    (h : wfKindsLocal e.get_kind e.get_children e.get_arguments = true) :
    ∀ l, e.get_arguments = some l → ∀ a ∈ l, a.get_kind = .ParmDecl := by
  rw [hk] at h
  simp only [wfKindsLocal] at h
  intro l hl a ha
  rw [hl] at h
  exact isParmKind_eq a (List.all_eq_true.mp h a ha)

theorem field_visit_entity_ok (f : FieldDeclare) (c : Entity)
    (h : c.get_kind = .FieldDecl) :
    ∃ fd, FieldDeclare.visit_entity f c = .ok fd := by
  unfold FieldDeclare.visit_entity
  rw [if_neg (by simp [h])]
  exact ⟨_, rfl⟩

theorem parameter_visit_entity_ok (p : ParameterDeclare) (c : Entity)
    (h : c.get_kind = .ParmDecl) :
    ∃ pd, ParameterDeclare.visit_entity p c = .ok pd := by
  unfold ParameterDeclare.visit_entity
  rw [if_neg (by simp [h])]
  exact ⟨_, rfl⟩

theorem enum_constant_visit_entity_ok (p : EnumConstantDeclare) (c : Entity)
    (h : c.get_kind = .EnumConstantDecl) :
    ∃ cd, EnumConstantDeclare.visit_entity p c = .ok cd := by
  unfold EnumConstantDeclare.visit_entity
  rw [if_neg (by simp [h])]
  exact ⟨_, rfl⟩

theorem UnionDeclare.visitFields_ok :
    ∀ (cs : List Entity) (u : UnionDeclare),
      (∀ c ∈ cs, c.get_kind = .FieldDecl) →
      ∃ u', UnionDeclare.visitFields u cs = .ok u'
  | [], u, _ => ⟨u, rfl⟩
  | c :: rest, u, hall => by
    obtain ⟨fd, hfd⟩ := field_visit_entity_ok (FieldDeclare.new c.get_name) c
      (hall c (List.mem_cons_self _ _))
    obtain ⟨u', hu'⟩ := UnionDeclare.visitFields_ok rest
      { u with fields := u.fields ++ [fd] }
      (fun x hx => hall x (List.mem_cons_of_mem _ hx))
    exact ⟨u', by simp [UnionDeclare.visitFields, hfd, hu']⟩

/-- Union population succeeds outright when every child is a field
declaration. -/
theorem union_visit_entity_ok (u : UnionDeclare) (e : Entity)
    (hk : e.get_kind = .UnionDecl)
    (hch : ∀ c ∈ e.get_children, c.get_kind = .FieldDecl) :
    ∃ u', UnionDeclare.visit_entity u e = .ok u' := by
  unfold UnionDeclare.visit_entity
  rw [if_neg (by simp [hk])]
  exact UnionDeclare.visitFields_ok _ _ hch

theorem EnumDeclare.visitConstants_nkm :
    ∀ (cs : List Entity) (self : EnumDeclare),
      (∀ c ∈ cs, c.get_kind = .EnumConstantDecl) →
      NoKindMismatch (EnumDeclare.visitConstants self cs)
  | [], _, _ => fun _ _ h => Except.noConfusion h
  | c :: rest, self, hall => by
    intro exp act hcontra
    cases hn : c.get_name with
    | none => simp [EnumDeclare.visitConstants, hn] at hcontra
    | some n =>
      obtain ⟨cd, hcd⟩ := enum_constant_visit_entity_ok (EnumConstantDeclare.new n) c
        (hall c (List.mem_cons_self _ _))
      simp only [EnumDeclare.visitConstants, hn, hcd] at hcontra
      exact EnumDeclare.visitConstants_nkm rest _
        (fun x hx => hall x (List.mem_cons_of_mem _ hx)) exp act hcontra

theorem enum_visit_entity_nkm (self : EnumDeclare) (e : Entity)
    (hk : e.get_kind = .EnumDecl)
    (hch : ∀ c ∈ e.get_children, c.get_kind = .EnumConstantDecl) :
    NoKindMismatch (EnumDeclare.visit_entity self e) := by
  unfold EnumDeclare.visit_entity
  rw [if_neg (by simp [hk])]
  exact EnumDeclare.visitConstants_nkm _ _ hch

theorem StructDeclare.visitMembers_nkm :
    ∀ (cs : List Entity) (self : StructDeclare),
      (∀ c ∈ cs, c.get_kind = .UnionDecl →
        ∀ cc ∈ c.get_children, cc.get_kind = .FieldDecl) →
      NoKindMismatch (StructDeclare.visitMembers self cs)
  | [], _, _ => fun _ _ h => Except.noConfusion h
  | c :: rest, self, hall => by
    intro exp act hcontra
    cases hck : c.get_kind with
    | FieldDecl =>
      obtain ⟨fd, hfd⟩ := field_visit_entity_ok (FieldDeclare.new c.get_name) c hck
      simp only [StructDeclare.visitMembers, hck, hfd] at hcontra
      exact StructDeclare.visitMembers_nkm rest _
        (fun x hx => hall x (List.mem_cons_of_mem _ hx)) exp act hcontra
    | UnionDecl =>
      obtain ⟨ud, hud⟩ := union_visit_entity_ok (UnionDeclare.new c.get_name none) c hck
        (hall c (List.mem_cons_self _ _) hck)
      simp only [StructDeclare.visitMembers, hck, hud] at hcontra
      exact StructDeclare.visitMembers_nkm rest _
        (fun x hx => hall x (List.mem_cons_of_mem _ hx)) exp act hcontra
    | TranslationUnit => simp [StructDeclare.visitMembers, hck] at hcontra
    | EnumDecl => simp [StructDeclare.visitMembers, hck] at hcontra
    | StructDecl => simp [StructDeclare.visitMembers, hck] at hcontra
    | TypedefDecl => simp [StructDeclare.visitMembers, hck] at hcontra
    | FunctionDecl => simp [StructDeclare.visitMembers, hck] at hcontra
    | ParmDecl => simp [StructDeclare.visitMembers, hck] at hcontra
    | EnumConstantDecl => simp [StructDeclare.visitMembers, hck] at hcontra
    | VarDecl => simp [StructDeclare.visitMembers, hck] at hcontra

theorem struct_visit_entity_nkm (self : StructDeclare) (e : Entity)
    (hk : e.get_kind = .StructDecl)
    (hch : ∀ c ∈ e.get_children, c.get_kind = .UnionDecl →
      ∀ cc ∈ c.get_children, cc.get_kind = .FieldDecl) :
    NoKindMismatch (StructDeclare.visit_entity self e) := by
  unfold StructDeclare.visit_entity
  rw [if_neg (by simp [hk])]
  exact StructDeclare.visitMembers_nkm _ _ hch

theorem FunctionDeclare.visitArguments_nkm :
    ∀ (args : List Entity) (self : FunctionDeclare),
      (∀ a ∈ args, a.get_kind = .ParmDecl) →
      NoKindMismatch (FunctionDeclare.visitArguments self args)
  | [], _, _ => fun _ _ h => Except.noConfusion h
  | a :: rest, self, hall => by
    intro exp act hcontra
    cases hn : a.get_name with
    | none => simp [FunctionDeclare.visitArguments, hn] at hcontra
    | some n =>
      obtain ⟨pd, hpd⟩ := parameter_visit_entity_ok (ParameterDeclare.new n) a
        (hall a (List.mem_cons_self _ _))
      simp only [FunctionDeclare.visitArguments, hn, hpd] at hcontra
      exact FunctionDeclare.visitArguments_nkm rest _
        (fun x hx => hall x (List.mem_cons_of_mem _ hx)) exp act hcontra

theorem function_visit_entity_nkm (self : FunctionDeclare) (e : Entity)
    (hk : e.get_kind = .FunctionDecl)
    (hargs : ∀ l, e.get_arguments = some l → ∀ a ∈ l, a.get_kind = .ParmDecl) :
    NoKindMismatch (FunctionDeclare.visit_entity self e) := by
  unfold FunctionDeclare.visit_entity
  rw [if_neg (by simp [hk])]
  cases ha : e.get_arguments with
  | none =>
    simp only [ha]
    exact fun _ _ h => Except.noConfusion h
  | some l =>
    simp only [ha]
    exact FunctionDeclare.visitArguments_nkm l _ (hargs l ha)

/-- A `parse_type_declare` step on a kind-well-formed entity never fails a
kind assertion. -/
theorem parse_type_declare_nkm (e : Entity) (l : List TypeDeclaration)
    (hwf : e.wfKinds = true) :
    NoKindMismatch (SourceFile.parse_type_declare e l) := by
  intro exp act hcontra
  obtain ⟨hloc, hch, hund, _⟩ := wfKinds_destruct e hwf
  cases hk : e.get_kind with
  | EnumDecl =>
    cases hn : e.get_name with
    | none => simp [SourceFile.parse_type_declare, hk, hn] at hcontra
    | some nm =>
      have hnkm := enum_visit_entity_nkm (EnumDeclare.new (some nm) none) e hk
        (wfKindsLocal_enum e hk hloc)
      cases hv : EnumDeclare.visit_entity (EnumDeclare.new (some nm) none) e with
      | error err =>
        simp only [SourceFile.parse_type_declare, hk, hn, hv] at hcontra
        injection hcontra with h1
        exact hnkm exp act (h1 ▸ hv)
      | ok d =>
        simp only [SourceFile.parse_type_declare, hk, hn, hv] at hcontra
        exact Except.noConfusion hcontra
  | StructDecl =>
    cases hn : e.get_name with
    | none => simp [SourceFile.parse_type_declare, hk, hn] at hcontra
    | some nm =>
      have hstr : ∀ c ∈ e.get_children, c.get_kind = .UnionDecl →
          ∀ cc ∈ c.get_children, cc.get_kind = .FieldDecl := by
        intro c hc hcU
        have hcwf := wfKindsList_mem _ hch c hc
        exact wfKindsLocal_union c hcU (wfKinds_destruct c hcwf).1
      have hnkm := struct_visit_entity_nkm (StructDeclare.new (some nm) none) e hk hstr
      cases hv : StructDeclare.visit_entity (StructDeclare.new (some nm) none) e with
      | error err =>
        simp only [SourceFile.parse_type_declare, hk, hn, hv] at hcontra
        injection hcontra with h1
        exact hnkm exp act (h1 ▸ hv)
      | ok d =>
        simp only [SourceFile.parse_type_declare, hk, hn, hv] at hcontra
        exact Except.noConfusion hcontra
  | UnionDecl =>
    cases hn : e.get_name with
    | none => simp [SourceFile.parse_type_declare, hk, hn] at hcontra
    | some nm =>
      obtain ⟨u', hu'⟩ := union_visit_entity_ok (UnionDeclare.new (some nm) none) e hk
        (wfKindsLocal_union e hk hloc)
      simp [SourceFile.parse_type_declare, hk, hn, hu'] at hcontra
  | TypedefDecl =>
    cases hu : e.get_typedef_underlying_declaration with
    | none => simp [SourceFile.parse_type_declare, hk, hu] at hcontra
    | some de =>
      have hdewf : de.wfKinds = true := by
        rw [hu] at hund
        simpa [wfKindsOpt] using hund
      cases hm : findMergeIdx e.get_name l with
      | some i =>
        cases hn : e.get_name with
        | none =>
          rw [hn] at hm
          simp [SourceFile.parse_type_declare, hk, hu, hn, hm] at hcontra
        | some tn =>
          rw [hn] at hm
          simp [SourceFile.parse_type_declare, hk, hu, hn, hm] at hcontra
      | none =>
        obtain ⟨hdloc, hdch, _, _⟩ := wfKinds_destruct de hdewf
        cases hdk : de.get_kind with
        | EnumDecl =>
          have hnkm := enum_visit_entity_nkm (EnumDeclare.new none e.get_name) de hdk
            (wfKindsLocal_enum de hdk hdloc)
          cases hv : EnumDeclare.visit_entity (EnumDeclare.new none e.get_name) de with
          | error err =>
            simp only [SourceFile.parse_type_declare, hk, hu, hm, hdk, hv] at hcontra
            injection hcontra with h1
            exact hnkm exp act (h1 ▸ hv)
          | ok d =>
            simp only [SourceFile.parse_type_declare, hk, hu, hm, hdk, hv] at hcontra
            exact Except.noConfusion hcontra
        | StructDecl =>
          have hstr : ∀ c ∈ de.get_children, c.get_kind = .UnionDecl →
              ∀ cc ∈ c.get_children, cc.get_kind = .FieldDecl := by
            intro c hc hcU
            have hcwf := wfKindsList_mem _ hdch c hc
            exact wfKindsLocal_union c hcU (wfKinds_destruct c hcwf).1
          have hnkm := struct_visit_entity_nkm (StructDeclare.new none e.get_name) de hdk hstr
          cases hv : StructDeclare.visit_entity (StructDeclare.new none e.get_name) de with
          | error err =>
            simp only [SourceFile.parse_type_declare, hk, hu, hm, hdk, hv] at hcontra
            injection hcontra with h1
            exact hnkm exp act (h1 ▸ hv)
          | ok d =>
            simp only [SourceFile.parse_type_declare, hk, hu, hm, hdk, hv] at hcontra
            exact Except.noConfusion hcontra
        | UnionDecl =>
          obtain ⟨u', hu'⟩ := union_visit_entity_ok (UnionDeclare.new none e.get_name) de hdk
            (wfKindsLocal_union de hdk hdloc)
          simp [SourceFile.parse_type_declare, hk, hu, hm, hdk, hu'] at hcontra
        | TranslationUnit => simp [SourceFile.parse_type_declare, hk, hu, hm, hdk] at hcontra
        | TypedefDecl => simp [SourceFile.parse_type_declare, hk, hu, hm, hdk] at hcontra
        | FunctionDecl => simp [SourceFile.parse_type_declare, hk, hu, hm, hdk] at hcontra
        | FieldDecl => simp [SourceFile.parse_type_declare, hk, hu, hm, hdk] at hcontra
        | ParmDecl => simp [SourceFile.parse_type_declare, hk, hu, hm, hdk] at hcontra
        | EnumConstantDecl => simp [SourceFile.parse_type_declare, hk, hu, hm, hdk] at hcontra
        | VarDecl => simp [SourceFile.parse_type_declare, hk, hu, hm, hdk] at hcontra
  | TranslationUnit => simp [SourceFile.parse_type_declare, hk] at hcontra
  | FunctionDecl => simp [SourceFile.parse_type_declare, hk] at hcontra
  | FieldDecl => simp [SourceFile.parse_type_declare, hk] at hcontra
  | ParmDecl => simp [SourceFile.parse_type_declare, hk] at hcontra
  | EnumConstantDecl => simp [SourceFile.parse_type_declare, hk] at hcontra
  | VarDecl => simp [SourceFile.parse_type_declare, hk] at hcontra

/-- A dispatch step on a kind-well-formed entity never fails a kind
assertion. -/
theorem visitChild_nkm (sf : SourceFile) (e : Entity) (hwf : e.wfKinds = true) :
    NoKindMismatch (SourceFile.visitChild sf e) := by
  intro exp act hcontra
  cases hk : e.get_kind with
  | EnumDecl =>
    cases hp : SourceFile.parse_type_declare e sf.type_declares with
    | error err =>
      simp only [SourceFile.visitChild, hk, hp] at hcontra
      injection hcontra with h1
      exact parse_type_declare_nkm e _ hwf exp act (h1 ▸ hp)
    | ok ds =>
      simp only [SourceFile.visitChild, hk, hp] at hcontra
      exact Except.noConfusion hcontra
  | StructDecl =>
    cases hp : SourceFile.parse_type_declare e sf.type_declares with
    | error err =>
      simp only [SourceFile.visitChild, hk, hp] at hcontra
      injection hcontra with h1
      exact parse_type_declare_nkm e _ hwf exp act (h1 ▸ hp)
    | ok ds =>
      simp only [SourceFile.visitChild, hk, hp] at hcontra
      exact Except.noConfusion hcontra
  | TypedefDecl =>
    cases hp : SourceFile.parse_type_declare e sf.type_declares with
    | error err =>
      simp only [SourceFile.visitChild, hk, hp] at hcontra
      injection hcontra with h1
      exact parse_type_declare_nkm e _ hwf exp act (h1 ▸ hp)
    | ok ds =>
      simp only [SourceFile.visitChild, hk, hp] at hcontra
      exact Except.noConfusion hcontra
  | FunctionDecl =>
    cases hn : e.get_name with
    | none => simp [SourceFile.visitChild, hk, hn] at hcontra
    | some n =>
      have hargs : ∀ lst, e.get_arguments = some lst →
          ∀ a ∈ lst, a.get_kind = .ParmDecl := by
        intro lst hl a ha
        exact wfKindsLocal_fun e hk (wfKinds_destruct e hwf).1 lst hl a ha
      have hnkm := function_visit_entity_nkm (FunctionDeclare.new n) e hk hargs
      cases hv : FunctionDeclare.visit_entity (FunctionDeclare.new n) e with
      | error err =>
        simp only [SourceFile.visitChild, hk, hn, hv] at hcontra
        injection hcontra with h1
        exact hnkm exp act (h1 ▸ hv)
      | ok fd =>
        simp only [SourceFile.visitChild, hk, hn, hv] at hcontra
        exact Except.noConfusion hcontra
  | TranslationUnit => simp [SourceFile.visitChild, hk] at hcontra
  | UnionDecl => simp [SourceFile.visitChild, hk] at hcontra
  | FieldDecl => simp [SourceFile.visitChild, hk] at hcontra
  | ParmDecl => simp [SourceFile.visitChild, hk] at hcontra
  | EnumConstantDecl => simp [SourceFile.visitChild, hk] at hcontra
  | VarDecl => simp [SourceFile.visitChild, hk] at hcontra

theorem visitChildren_nkm :
    ∀ (es : List Entity) (sf : SourceFile),
      (∀ e ∈ es, e.wfKinds = true) →
      NoKindMismatch (SourceFile.visitChildren sf es)
  | [], _, _ => fun _ _ h => Except.noConfusion h
  | e :: rest, sf, hall => by
    intro exp act hcontra
    cases hc : SourceFile.visitChild sf e with
    | error err =>
      simp only [SourceFile.visitChildren, hc] at hcontra
      injection hcontra with h1
      exact visitChild_nkm sf e (hall e (List.mem_cons_self _ _)) exp act (h1 ▸ hc)
    | ok sf1 =>
      simp only [SourceFile.visitChildren, hc] at hcontra
      exact visitChildren_nkm rest sf1
        (fun x hx => hall x (List.mem_cons_of_mem _ hx)) exp act hcontra

/-- Claim C9, amended: kind dispatch matches the kind assertions at every node
except inside union member population, where every child is passed to field
population whatever its kind; so for a root translation-unit entity whose tree
obeys the frontend kind discipline `Entity.wfKinds` (in particular, every
union child is a field declaration), no kind assertion ever fails during the
walk. -/
theorem c9_kind_assertions_hold (path : String) (root : Entity)
    (hk : root.get_kind = .TranslationUnit) (hwf : root.wfKinds = true) :
    ∀ expected actual,
      SourceFile.visit_entity (SourceFile.new path) root
        ≠ .error (.kindMismatch expected actual) := by
  intro exp act hcontra
  unfold SourceFile.visit_entity at hcontra
  rw [if_neg (by simp [hk])] at hcontra
  have hch : ∀ e ∈ root.get_children.filter (fun x => x.is_in_main_file),
      e.wfKinds = true := by
    intro e he
    exact wfKindsList_mem _ (wfKinds_destruct root hwf).2.1 e (List.mem_filter.mp he).1
  exact visitChildren_nkm _ _ hch exp act hcontra

/-- Witness for C9 (amended) at the `Point` translation unit, whose tree obeys
the frontend kind discipline. -/
theorem c9_witness :
    pointTU.wfKinds = true ∧
    ∀ expected actual,
      SourceFile.visit_entity (SourceFile.new "point.c") pointTU
        ≠ .error (.kindMismatch expected actual) :=
  ⟨rfl, c9_kind_assertions_hold "point.c" pointTU rfl rfl⟩

end PlayClangAst
